import Mathlib

/-!
# ArduboyPlaytune (SAMD51 / Arcada audio port)

A shallow embedding of `src/ArduboyPlaytune_Audio.cpp`: the file-level
variables become one `State` record, every member function becomes a
function on `State`, and the `while (1)` loop of `step()` becomes a
fuel-indexed recursion returning `Option State`.

Conventions of the embedding

* `byte` values are natural numbers below 256; `pgm_read_byte` reduces what
  it reads modulo 256.
* `score_start` is the buffer the score pointer refers to and `score_cursor`
  is the offset of the cursor from `score_start`.  A read past the end of the
  buffer has no defined value and yields `none`.
* `duration` is the `int32_t` countdown, an `Int`.
* `sine1`, `sine2` and the speaker switch of `arcada` are external devices;
  the state records the last value written to each of them.
* `outputEnabled` is the host predicate; its value during one call is a
  `Bool` argument of the functions that poll it.
* `Serial.print` diagnostics, `AudioMemory`, the LED pin set-up and the
  registration of the timer callback have no effect on this state and are
  left out.
-/

namespace ArduboyPlaytune

/-- Amplitude levels handed to `sine1.amplitude` / `sine2.amplitude`.  The
source passes only the literal `0` and the Arcada library constant
`ARCADA_MAX_VOLUME` (the full, audible volume level). -/
inductive Amplitude where
  | zero
  | ARCADA_MAX_VOLUME
  deriving DecidableEq, Repr

/-- The file-level variables of the source together with the last values
written to the two sine generators and to the speaker switch. -/
structure State where
  playing_chan0 : Bool
  playing_chan1 : Bool
  _tune_num_chans : Nat
  tune_playing : Bool
  all_muted : Bool
  tone_playing : Bool
  tone_mutes_score : Bool
  tone_only : Bool
  mute_score : Bool
  score_start : List Nat
  score_cursor : Nat
  duration : Int
  sine1_amplitude : Amplitude
  sine1_frequency : Nat
  sine2_amplitude : Amplitude
  sine2_frequency : Nat
  speaker : Bool
  deriving DecidableEq, Repr

/-- The initial values of the file-level variables: nothing playing, no
channel initialised, null score pointers, countdown 0, devices silent. -/
def powerOn : State :=
  { playing_chan0 := false, playing_chan1 := false, _tune_num_chans := 0,
    tune_playing := false, all_muted := false, tone_playing := false,
    tone_mutes_score := false, tone_only := false, mute_score := false,
    score_start := [], score_cursor := 0, duration := 0,
    sine1_amplitude := .zero, sine1_frequency := 0,
    sine2_amplitude := .zero, sine2_frequency := 0, speaker := false }

/-- Modelled from the spec: the opcode constant `TUNE_OP_STOPNOTE` of
`ArduboyPlaytune.h`, which is not under `src/` (note-off, command byte
`0x8c`). -/
def TUNE_OP_STOPNOTE : Nat := 0x80

/-- Modelled from the spec: the opcode constant `TUNE_OP_PLAYNOTE` of
`ArduboyPlaytune.h`, which is not under `src/` (note-on, command byte
`0x9c`). -/
def TUNE_OP_PLAYNOTE : Nat := 0x90

/-- Modelled from the spec: the opcode constant `TUNE_OP_RESTART` of
`ArduboyPlaytune.h`, which is not under `src/` (restart, command byte
`0xE0`). -/
def TUNE_OP_RESTART : Nat := 0xe0

/-- Modelled from the spec: the opcode constant `TUNE_OP_STOP` of
`ArduboyPlaytune.h`, which is not under `src/` (stop, command byte `0xF0`). -/
def TUNE_OP_STOP : Nat := 0xf0

/-- The low-range table of the source (48 entries).  `playNote` never reads
it. -/
def _midi_byte_note_frequencies : List Nat :=
  [16,17,18,19,21,22,23,24,26,28,29,31,33,35,37,39,41,44,46,49,52,55,58,62,65,
   69,73,78,82,87,92,98,104,110,117,123,131,139,147,156,165,175,185,196,208,220,
   233,247]

/-- The extended-range table of the source (80 entries). -/
def _midi_word_note_frequencies : List Nat :=
  [262,277,294,311,330,349,370,392,415,440,466,494,523,554,587,622,659,
   698,740,784,831,880,932,988,1047,1109,1175,1245,1319,1397,1480,1568,1661,1760,
   1865,1976,2093,2217,2349,2489,2637,2794,2960,3136,3322,3520,3729,3951,4186,
   4435,4699,4978,5274,5588,5920,6272,6645,7040,7459,7902,8372,8870,9397,9956,
   10548,11175,11840,12544,13290,14080,14917,15804,16744,17740,18795,19912,21096,
   22351,23680,25088]

/-- Read of one byte of program memory at offset `i` of the buffer. -/
def pgm_read_byte (score : List Nat) (i : Nat) : Option Nat :=
  (score[i]?).map (fun b => b % 256)

/-- Conversion of a 32-bit unsigned value to `int32_t`. -/
def toInt32 (x : Nat) : Int :=
  if x % 2 ^ 32 < 2 ^ 31 then ((x % 2 ^ 32 : Nat) : Int)
  else ((x % 2 ^ 32 : Nat) : Int) - 2 ^ 32

/-- The speaker update that closes `playNote`, `stopNote` and `tone`:
`arcada.enableSpeaker(playing_chan0 || playing_chan1)`. -/
def updateSpeaker (s : State) : State :=
  if s.playing_chan0 || s.playing_chan1 then { s with speaker := true }
  else { s with speaker := false }

/-- `ArduboyPlaytune::initChannel`. -/
def initChannel (s : State) : State :=
  { s with _tune_num_chans := 2, speaker := false }

/-- `ArduboyPlaytune::playNote`. -/
def playNote (chan note : Nat) (s : State) : State :=
  if chan ≥ s._tune_num_chans then s
  else if note > 127 then s
  else
    let freq :=
      if note < 48 then _midi_word_note_frequencies.getD note 0
      else _midi_word_note_frequencies.getD (note - 48) 0
    let s1 :=
      if chan = 0 then
        { s with sine1_amplitude := .ARCADA_MAX_VOLUME, sine1_frequency := freq,
                 playing_chan0 := true }
      else s
    let s2 :=
      if chan = 1 then
        { s1 with sine2_amplitude := .ARCADA_MAX_VOLUME, sine2_frequency := freq,
                  playing_chan1 := true }
      else s1
    updateSpeaker s2

/-- `ArduboyPlaytune::stopNote`. -/
def stopNote (chan : Nat) (s : State) : State :=
  let s1 :=
    if chan = 0 then { s with sine1_amplitude := .zero, playing_chan0 := false }
    else s
  let s2 :=
    if chan = 1 then { s1 with sine2_amplitude := .zero, playing_chan1 := false }
    else s1
  updateSpeaker s2

/-- `ArduboyPlaytune::step`: the decode loop, one iteration per unit of fuel.
`none` when the fuel runs out or a read leaves the buffer. -/
def step (outputEnabled : Bool) : Nat → State → Option State
  | 0, _ => none
  | fuel + 1, s =>
    match pgm_read_byte s.score_start s.score_cursor with
    | none => none
    | some command =>
      let s1 := { s with score_cursor := s.score_cursor + 1 }
      let opcode := command &&& 0xf0
      let chan := command &&& 0x0f
      if opcode = TUNE_OP_STOPNOTE then
        step outputEnabled fuel (stopNote chan s1)
      else if opcode = TUNE_OP_PLAYNOTE then
        let s2 := { s1 with all_muted := !outputEnabled }
        match pgm_read_byte s2.score_start s2.score_cursor with
        | none => none
        | some note =>
          step outputEnabled fuel
            (playNote chan note { s2 with score_cursor := s2.score_cursor + 1 })
      else if opcode < 0x80 then
        match pgm_read_byte s1.score_start s1.score_cursor with
        | none => none
        | some b =>
          some { s1 with score_cursor := s1.score_cursor + 1,
                         duration := toInt32 ((command <<< 8) ||| b) }
      else if opcode = TUNE_OP_RESTART then
        step outputEnabled fuel { s1 with score_cursor := 0 }
      else if opcode = TUNE_OP_STOP then
        some { s1 with tune_playing := false }
      else
        step outputEnabled fuel s1

/-- `ArduboyPlaytune::playScore`. -/
def playScore (outputEnabled : Bool) (fuel : Nat) (score : List Nat) (s : State) :
    Option State :=
  (step outputEnabled fuel { s with score_start := score, score_cursor := 0 }).map
    (fun s1 => { s1 with tune_playing := true })

/-- `ArduboyPlaytune::stopScore`. -/
def stopScore (s : State) : State :=
  let s1 := (List.range s._tune_num_chans).foldl (fun acc i => stopNote i acc) s
  { s1 with tune_playing := false }

/-- `ArduboyPlaytune::playing`. -/
def playing (s : State) : Bool := s.tune_playing

/-- `ArduboyPlaytune::closeChannels`. -/
def closeChannels (s : State) : State :=
  { stopNote 1 (stopNote 0 s) with
    _tune_num_chans := 0, tune_playing := false, tone_playing := false,
    tone_only := false, mute_score := false }

/-- `ArduboyPlaytune::tone`; `frequency` is an `unsigned int`,
`tone_duration` an `unsigned long` (both 32 bits wide). -/
def tone (outputEnabled : Bool) (frequency tone_duration : Nat) (s : State) : State :=
  if !outputEnabled || s._tune_num_chans < 2 then s
  else
    updateSpeaker
      { s with tone_playing := true, mute_score := s.tone_mutes_score,
               sine2_amplitude := .zero, sine1_amplitude := .ARCADA_MAX_VOLUME,
               playing_chan0 := true, playing_chan1 := false,
               sine1_frequency := frequency % 2 ^ 32,
               duration := toInt32 tone_duration }

/-- `ArduboyPlaytune::toneMutesScore`. -/
def toneMutesScore (mute : Bool) (s : State) : State :=
  { s with tone_mutes_score := mute }

/-- The tone-stop block of `TimerCallback`: both generators to amplitude 0,
both channel flags cleared, speaker off. -/
def silenceAll (s : State) : State :=
  { s with sine1_amplitude := .zero, sine2_amplitude := .zero,
           playing_chan0 := false, playing_chan1 := false, speaker := false }

/-- `TimerCallback`, one timer tick. -/
def TimerCallback (outputEnabled : Bool) (fuel : Nat) (s : State) : Option State :=
  if s.duration > 0 then
    let s1 := { s with duration := s.duration - 1 }
    if s1.duration = 0 then
      let s2 := if s1.tone_playing then silenceAll s1 else s1
      if s2.tune_playing then step outputEnabled fuel s2 else some s2
    else some s1
  else some s

/-- The state after `n` successive timer ticks with no other call in
between. -/
def ticks (outputEnabled : Bool) (fuel : Nat) : Nat → State → Option State
  | 0, s => some s
  | n + 1, s => (TimerCallback outputEnabled fuel s).bind (ticks outputEnabled fuel n)

/-! ## The zero-duration commands of a score, as the specification describes them -/

/-- A zero-duration command: note-on (command byte `0x90 + chan`, then the note
byte) or note-off (command byte `0x80 + chan`). -/
inductive ZeroCmd where
  | noteOn (chan note : Nat)
  | noteOff (chan : Nat)
  deriving DecidableEq, Repr

/-- The bytes of a zero-duration command. -/
def ZeroCmd.encode : ZeroCmd → List Nat
  | .noteOn chan note => [0x90 + chan, note]
  | .noteOff chan => [0x80 + chan]

/-- The channel nibble is below 16 and a note-on carries a note index of at
most 127. -/
def ZeroCmd.valid : ZeroCmd → Prop
  | .noteOn chan note => chan < 16 ∧ note ≤ 127
  | .noteOff chan => chan < 16

/-- The effect of one zero-duration command on the state, cursor apart: a
note-off is `stopNote`, a note-on polls the host predicate and is `playNote`. -/
def ZeroCmd.apply (outputEnabled : Bool) : ZeroCmd → State → State
  | .noteOn chan note, s => playNote chan note { s with all_muted := !outputEnabled }
  | .noteOff chan, s => stopNote chan s

/-- The bytes of a run of zero-duration commands. -/
def encodeRun (run : List ZeroCmd) : List Nat :=
  (run.map ZeroCmd.encode).flatten

/-- The effect of a run of zero-duration commands, applied in order. -/
def applyRun (outputEnabled : Bool) (run : List ZeroCmd) (s : State) : State :=
  run.foldl (fun acc c => c.apply outputEnabled acc) s

/-! ## Per-channel views of the state -/

/-- The frequency last written to the generator of channel `chan` (`sine1` for
channel 0, `sine2` otherwise). -/
def channelFrequency (chan : Nat) (s : State) : Nat :=
  if chan = 0 then s.sine1_frequency else s.sine2_frequency

/-- The amplitude last written to the generator of channel `chan`. -/
def channelAmplitude (chan : Nat) (s : State) : Amplitude :=
  if chan = 0 then s.sine1_amplitude else s.sine2_amplitude

/-- The active flag of channel `chan` (`playing_chan0` / `playing_chan1`). -/
def channelActive (chan : Nat) (s : State) : Bool :=
  if chan = 0 then s.playing_chan0 else s.playing_chan1

/-! ## Concrete scores and states used as test inputs -/

/-- A score: wait 100 ms, note-on (channel 0, note 60), wait 100 ms, stop. -/
def scoreNoteAfterWait : List Nat := [0, 100, 0x90, 60, 0, 100, 0xf0]

/-- The state after `initChannel`, `playScore scoreNoteAfterWait` and
`tone(440, 1)` with sound enabled: the score is running, the tone is playing
and the countdown is 1. -/
def toneOverWaitingScore : State :=
  { initChannel powerOn with
    score_start := scoreNoteAfterWait, score_cursor := 2, tune_playing := true,
    tone_playing := true, duration := 1, playing_chan0 := true,
    sine1_amplitude := .ARCADA_MAX_VOLUME, sine1_frequency := 440, speaker := true }

/-- A score: wait 50 ms, note-on (channel 1, note 72), note-off (channel 0),
wait 500 ms, stop. -/
def scoreTwoCommandsAfterWait : List Nat := [0, 50, 0x91, 72, 0x80, 1, 244, 0xf0]

/-- The state after `initChannel`, `playScore scoreTwoCommandsAfterWait` and
`tone(880, 1)` with sound enabled. -/
def toneOverTwoCommands : State :=
  { initChannel powerOn with
    score_start := scoreTwoCommandsAfterWait, score_cursor := 2, tune_playing := true,
    tone_playing := true, duration := 1, playing_chan0 := true,
    sine1_amplitude := .ARCADA_MAX_VOLUME, sine1_frequency := 880, speaker := true }

/-- The state after `initChannel` and `tone(440, 1)` with sound enabled and no
score started. -/
def toneAlone : State :=
  { initChannel powerOn with
    tone_playing := true, duration := 1, playing_chan0 := true,
    sine1_amplitude := .ARCADA_MAX_VOLUME, sine1_frequency := 440, speaker := true }

/-- A running score positioned at a note-on (channel 0, note 60) that is
followed by a wait of 100 ms and a stop, with two channels initialised. -/
def atNoteOn : State :=
  { initChannel powerOn with
    score_start := [0x90, 60, 0, 100, 0xf0], score_cursor := 0, tune_playing := true }

/-- Two channels initialised and a note sounding on channel 1, with
`tone_mutes_score` at its default `false`. -/
def noteOnChannel1 : State := playNote 1 60 (initChannel powerOn)

/-! ## Decoding a score without executing it -/

/-- The branch of the decode loop that a command byte selects. -/
inductive CommandKind where
  | stopNote
  | playNote
  | wait
  | restart
  | stop
  | other
  deriving DecidableEq, Repr

/-- The branch tests of `step()`, in the order of the source. -/
def commandKind (command : Nat) : CommandKind :=
  let opcode := command &&& 0xf0
  if opcode = TUNE_OP_STOPNOTE then .stopNote
  else if opcode = TUNE_OP_PLAYNOTE then .playNote
  else if opcode < 0x80 then .wait
  else if opcode = TUNE_OP_RESTART then .restart
  else if opcode = TUNE_OP_STOP then .stop
  else .other

/-- How a linear pass over the score bytes ends: at a wait or stop command, or
at a restart command. -/
inductive ScanResult where
  | halts
  | restarts
  deriving DecidableEq, Repr

/-- Linear decoding of at most `n` commands from offset `i`, following the byte
layout only (one byte per command, two for note-on and wait) and not following
a restart.  `none` when `n` commands were decoded without meeting a wait, stop
or restart, or when a command leaves the buffer. -/
def scan (score : List Nat) : Nat → Nat → Option ScanResult
  | 0, _ => none
  | n + 1, i =>
    match pgm_read_byte score i with
    | none => none
    | some command =>
      match commandKind command with
      | .stopNote => scan score n (i + 1)
      | .playNote =>
        match pgm_read_byte score (i + 1) with
        | none => none
        | some _ => scan score n (i + 2)
      | .wait =>
        match pgm_read_byte score (i + 1) with
        | none => none
        | some _ => some .halts
      | .restart => some .restarts
      | .stop => some .halts
      | .other => scan score n (i + 1)

/-! ## State predicates -/

/-- No channel is initialised and nothing sounds: channel count 0, both
channels inactive with amplitude 0, speaker disabled. -/
def closedAndSilent (s : State) : Prop :=
  s._tune_num_chans = 0 ∧ s.playing_chan0 = false ∧ s.playing_chan1 = false ∧
  s.sine1_amplitude = Amplitude.zero ∧ s.sine2_amplitude = Amplitude.zero ∧
  s.speaker = false

/-- The speaker switch agrees with the channel flags: enabled exactly when
`playing_chan0 || playing_chan1`. -/
def speakerMatchesChannels (s : State) : Prop :=
  s.speaker = (s.playing_chan0 || s.playing_chan1)

/-! ## Sequences of calls from the host and the timer -/

/-- One call into the library, with its arguments: a member function called by
the host, or `TimerCallback` called by the timer.  Calls that run `step()` carry
the value of the host predicate during the call and the fuel of the decode
loop. -/
inductive Call where
  | initChannel
  | playNote (chan note : Nat)
  | stopNote (chan : Nat)
  | playScore (outputEnabled : Bool) (fuel : Nat) (score : List Nat)
  | stopScore
  | tone (outputEnabled : Bool) (frequency tone_duration : Nat)
  | closeChannels
  | TimerCallback (outputEnabled : Bool) (fuel : Nat)
  deriving DecidableEq, Repr

/-- The state after one call, `none` when the call does not return. -/
def Call.run : Call → State → Option State
  | .initChannel, s => some (ArduboyPlaytune.initChannel s)
  | .playNote chan note, s => some (ArduboyPlaytune.playNote chan note s)
  | .stopNote chan, s => some (ArduboyPlaytune.stopNote chan s)
  | .playScore oe fuel score, s => ArduboyPlaytune.playScore oe fuel score s
  | .stopScore, s => some (ArduboyPlaytune.stopScore s)
  | .tone oe f d, s => some (ArduboyPlaytune.tone oe f d s)
  | .closeChannels, s => some (ArduboyPlaytune.closeChannels s)
  | .TimerCallback oe fuel, s => ArduboyPlaytune.TimerCallback oe fuel s

/-- The state after a sequence of calls, made one after the other. -/
def runCalls : List Call → State → Option State
  | [], s => some s
  | c :: cs, s => (c.run s).bind (runCalls cs)

/-- Every `initChannel` of the sequence is called in a state in which no channel
is active. -/
def initOnlyWhenSilent : List Call → State → Bool
  | [], _ => true
  | c :: cs, s =>
    (match c with
      | .initChannel => !s.playing_chan0 && !s.playing_chan1
      | _ => true) &&
    (match c.run s with
      | some s' => initOnlyWhenSilent cs s'
      | none => true)

/-! ## The sequence of writes a running score emits

`stepLog`, `playScoreLog`, `TimerCallbackLog` and `ticksLog` are `step`,
`playScore`, `TimerCallback` and `ticks` again, carrying next to the state the
list of writes made so far: each `sineN.amplitude(..)` and `sineN.frequency(..)`
call, each value assigned to the countdown by a wait command, and each reset of
the cursor by a restart command.  The speaker switch and the per-tick decrement
of the countdown are not recorded. -/

/-- One recorded write. -/
inductive Write where
  | amplitude (chan : Nat) (a : Amplitude)
  | frequency (chan : Nat) (f : Nat)
  | countdown (d : Int)
  | cursorReset
  deriving DecidableEq, Repr

/-- The amplitude and frequency writes of `playNote(chan, note)` when
`_tune_num_chans = chans`. -/
def playNoteWrites (chans chan note : Nat) : List Write :=
  if chan ≥ chans then []
  else if note > 127 then []
  else
    let freq :=
      if note < 48 then _midi_word_note_frequencies.getD note 0
      else _midi_word_note_frequencies.getD (note - 48) 0
    (if chan = 0 then [.amplitude 0 .ARCADA_MAX_VOLUME, .frequency 0 freq] else []) ++
    (if chan = 1 then [.amplitude 1 .ARCADA_MAX_VOLUME, .frequency 1 freq] else [])

/-- The amplitude writes of `stopNote(chan)`. -/
def stopNoteWrites (chan : Nat) : List Write :=
  (if chan = 0 then [.amplitude 0 .zero] else []) ++
  (if chan = 1 then [.amplitude 1 .zero] else [])

/-- The decode loop of `step()` with the writes recorded. -/
def stepLog (outputEnabled : Bool) : Nat → State → List Write → Option (State × List Write)
  | 0, _, _ => none
  | fuel + 1, s, log =>
    match pgm_read_byte s.score_start s.score_cursor with
    | none => none
    | some command =>
      let s1 := { s with score_cursor := s.score_cursor + 1 }
      let opcode := command &&& 0xf0
      let chan := command &&& 0x0f
      if opcode = TUNE_OP_STOPNOTE then
        stepLog outputEnabled fuel (stopNote chan s1) (log ++ stopNoteWrites chan)
      else if opcode = TUNE_OP_PLAYNOTE then
        let s2 := { s1 with all_muted := !outputEnabled }
        match pgm_read_byte s2.score_start s2.score_cursor with
        | none => none
        | some note =>
          stepLog outputEnabled fuel
            (playNote chan note { s2 with score_cursor := s2.score_cursor + 1 })
            (log ++ playNoteWrites s2._tune_num_chans chan note)
      else if opcode < 0x80 then
        match pgm_read_byte s1.score_start s1.score_cursor with
        | none => none
        | some b =>
          some ({ s1 with score_cursor := s1.score_cursor + 1,
                          duration := toInt32 ((command <<< 8) ||| b) },
                log ++ [.countdown (toInt32 ((command <<< 8) ||| b))])
      else if opcode = TUNE_OP_RESTART then
        stepLog outputEnabled fuel { s1 with score_cursor := 0 } (log ++ [.cursorReset])
      else if opcode = TUNE_OP_STOP then
        some ({ s1 with tune_playing := false }, log)
      else
        stepLog outputEnabled fuel s1 log

/-- The function `playScore` with the writes recorded. -/
def playScoreLog (outputEnabled : Bool) (fuel : Nat) (score : List Nat) (s : State)
    (log : List Write) : Option (State × List Write) :=
  (stepLog outputEnabled fuel { s with score_start := score, score_cursor := 0 } log).map
    (fun r => ({ r.1 with tune_playing := true }, r.2))

/-- The function `TimerCallback` with the writes recorded. -/
def TimerCallbackLog (outputEnabled : Bool) (fuel : Nat) (s : State) (log : List Write) :
    Option (State × List Write) :=
  if s.duration > 0 then
    let s1 := { s with duration := s.duration - 1 }
    if s1.duration = 0 then
      let r2 :=
        if s1.tone_playing then
          (silenceAll s1, log ++ [Write.amplitude 0 .zero, Write.amplitude 1 .zero])
        else (s1, log)
      if r2.1.tune_playing then stepLog outputEnabled fuel r2.1 r2.2 else some r2
    else some (s1, log)
  else some (s, log)

/-- The state and the recorded writes after `n` successive timer ticks. -/
def ticksLog (outputEnabled : Bool) (fuel : Nat) :
    Nat → State → List Write → Option (State × List Write)
  | 0, s, log => some (s, log)
  | n + 1, s, log =>
    (TimerCallbackLog outputEnabled fuel s log).bind
      (fun r => ticksLog outputEnabled fuel n r.1 r.2)

/-! ## Looping scores, as the specification describes them -/

/-- A phrase of a score: a run of zero-duration commands and the wait command
(bytes `hi`, `lo`) that ends it. -/
structure Phrase where
  run : List ZeroCmd
  hi : Nat
  lo : Nat
  deriving DecidableEq, Repr

/-- The bytes of a phrase. -/
def Phrase.encode (p : Phrase) : List Nat :=
  encodeRun p.run ++ [p.hi, p.lo]

/-- The duration of the wait of a phrase, in ms. -/
def Phrase.ms (p : Phrase) : Nat := 256 * p.hi + p.lo

/-- The commands of the phrase are well formed and its wait lasts at least
1 ms. -/
def Phrase.valid (p : Phrase) : Prop :=
  (∀ c ∈ p.run, c.valid) ∧ p.hi < 128 ∧ p.lo < 256 ∧ 1 ≤ p.ms

/-- The writes of one zero-duration command for a channel count `chans`. -/
def ZeroCmd.writes (chans : Nat) : ZeroCmd → List Write
  | .noteOn chan note => playNoteWrites chans chan note
  | .noteOff chan => stopNoteWrites chan

/-- The writes of a run of zero-duration commands, in order. -/
def runWrites (chans : Nat) (run : List ZeroCmd) : List Write :=
  (run.map (ZeroCmd.writes chans)).flatten

/-- The writes of a phrase: those of its run, then the countdown of its wait. -/
def Phrase.writes (chans : Nat) (p : Phrase) : List Write :=
  runWrites chans p.run ++ [.countdown ((p.ms : Nat) : Int)]

/-- A looping score: at least one phrase, then a run of zero-duration commands
and the restart command `0xE0`. -/
structure LoopScore where
  first : Phrase
  more : List Phrase
  trailing : List ZeroCmd
  deriving DecidableEq, Repr

/-- The bytes of a looping score. -/
def LoopScore.encode (L : LoopScore) : List Nat :=
  L.first.encode ++ ((L.more.map Phrase.encode).flatten ++ (encodeRun L.trailing ++ [0xe0]))

/-- Every phrase and the trailing run are well formed. -/
def LoopScore.valid (L : LoopScore) : Prop :=
  L.first.valid ∧ (∀ p ∈ L.more, p.valid) ∧ (∀ c ∈ L.trailing, c.valid)

/-- The duration of one pass of the loop, in ms (timer ticks). -/
def LoopScore.period (L : LoopScore) : Nat :=
  L.first.ms + (L.more.map Phrase.ms).sum

/-- The writes of the tone-stop block of `TimerCallback`, made at the expiry of
the countdown when `tone_playing` is set. -/
def toneStopWrites (tone_playing : Bool) : List Write :=
  if tone_playing then [.amplitude 0 .zero, .amplitude 1 .zero] else []

/-- The state on which `TimerCallback` calls `step()` at the expiry of the
countdown: countdown 0, and the channels silenced when `tone_playing` is set. -/
def expired (s : State) : State :=
  if s.tone_playing then silenceAll { s with duration := 0 } else { s with duration := 0 }

/-- The writes of a pass after the first phrase: each later phrase and the
trailing run come after the expiry of a wait, hence after the writes of the
tone-stop block if `tone_playing` is set; the cursor reset of the restart
ends the pass. -/
def LoopScore.restWrites (chans : Nat) (tone_playing : Bool) (L : LoopScore) : List Write :=
  (L.more.map (fun p => toneStopWrites tone_playing ++ p.writes chans)).flatten ++
    (toneStopWrites tone_playing ++ (runWrites chans L.trailing ++ [.cursorReset]))

/-- The writes of one pass of the loop, from the score start up to and including
the cursor reset of the restart. -/
def LoopScore.passWrites (chans : Nat) (tone_playing : Bool) (L : LoopScore) : List Write :=
  L.first.writes chans ++ L.restWrites chans tone_playing

/-- The fuel is enough for every call of `step()` that a pass makes: one unit per
command of any phrase, and for the call that passes the restart one unit per
command of the trailing run, the restart and the first phrase. -/
def LoopScore.fuelOk (L : LoopScore) (fuel : Nat) : Prop :=
  (∀ p ∈ L.more, p.run.length + 1 ≤ fuel) ∧
  L.trailing.length + 1 + (L.first.run.length + 1) ≤ fuel

/-- The state of a running looping score during the wait of its first phrase: the
score buffer holds the loop followed by `rest`, the cursor stands just past the
first phrase, the countdown is the duration of its wait, `tone_playing` is `tp`
and the channel count is `chans`. -/
def LoopScore.waitingAfterFirst (L : LoopScore) (rest : List Nat) (chans : Nat) (tp : Bool)
    (s : State) : Prop :=
  s.score_start = L.encode ++ rest ∧ s.score_cursor = L.first.encode.length ∧
  s.duration = ((L.first.ms : Nat) : Int) ∧ s.tone_playing = tp ∧
  s.tune_playing = true ∧ s._tune_num_chans = chans

/-- A looping score: note-on (channel 0, note 60), wait 1 ms, note-off
(channel 0), note-on (channel 1, note 64), wait 2 ms, note-off (channel 1),
restart. -/
def tinyLoop : LoopScore :=
  { first := { run := [ZeroCmd.noteOn 0 60], hi := 0, lo := 1 }
    more := [{ run := [ZeroCmd.noteOff 0, ZeroCmd.noteOn 1 64], hi := 0, lo := 2 }]
    trailing := [ZeroCmd.noteOff 1] }

theorem pgm_read_byte_at (pre : List Nat) (x : Nat) (tl : List Nat) :
    pgm_read_byte (pre ++ x :: tl) pre.length = some (x % 256) := by
  have h : (pre ++ x :: tl)[pre.length]? = some x := by
    rw [List.getElem?_append_right (le_refl _)]
    simp
  rw [pgm_read_byte, h]
  rfl

theorem pgm_read_byte_at_succ (pre : List Nat) (x y : Nat) (tl : List Nat) :
    pgm_read_byte (pre ++ x :: y :: tl) (pre.length + 1) = some (y % 256) := by
  have h := pgm_read_byte_at (pre ++ [x]) y tl
  simpa using h

theorem playNote_cursor (chan note k : Nat) (s : State) :
    playNote chan note { s with score_cursor := k } =
      { playNote chan note s with score_cursor := k } := by
  unfold playNote updateSpeaker
  dsimp only
  split_ifs <;> rfl

theorem stopNote_cursor (chan k : Nat) (s : State) :
    stopNote chan { s with score_cursor := k } = { stopNote chan s with score_cursor := k } := by
  unfold stopNote updateSpeaker
  dsimp only
  split_ifs <;> rfl

theorem nibbles_noteOn :
    ∀ c, c < 16 → ((0x90 + c) % 256) &&& 0xf0 = 0x90 ∧ ((0x90 + c) % 256) &&& 0x0f = c := by
  decide

theorem nibbles_noteOff :
    ∀ c, c < 16 → ((0x80 + c) % 256) &&& 0xf0 = 0x80 ∧ ((0x80 + c) % 256) &&& 0x0f = c := by
  decide

theorem opcode_wait : ∀ c, c < 128 → (c % 256) &&& 0xf0 < 0x80 := by
  decide

theorem wait_value (c b : Nat) (hc : c < 128) (hb : b < 256) :
    toInt32 (((c % 256) <<< 8) ||| (b % 256)) = 256 * (c : Int) + (b : Int) := by
  have h1 : c % 256 = c := Nat.mod_eq_of_lt (by omega)
  have h2 : b % 256 = b := Nat.mod_eq_of_lt hb
  have h3 : (c <<< 8) ||| b = 256 * c + b := by
    rw [Nat.shiftLeft_eq, Nat.mul_comm]
    exact (Nat.mul_add_lt_is_or (i := 8) (by simpa using hb) c).symm
  rw [h1, h2, h3]
  unfold toInt32
  have h4 : (256 * c + b) % 2 ^ 32 = 256 * c + b := Nat.mod_eq_of_lt (by omega)
  rw [h4, if_pos (by omega)]
  push_cast
  ring

theorem step_stopnote (oe : Bool) (fuel : Nat) (s : State) (command : Nat)
    (hr : pgm_read_byte s.score_start s.score_cursor = some command)
    (hop : command &&& 0xf0 = 0x80) :
    step oe (fuel + 1) s =
      step oe fuel (stopNote (command &&& 0x0f) { s with score_cursor := s.score_cursor + 1 }) := by
  rw [step]
  simp only [hr, hop, TUNE_OP_STOPNOTE, if_true]

theorem step_playnote (oe : Bool) (fuel : Nat) (s : State) (command note : Nat)
    (hr : pgm_read_byte s.score_start s.score_cursor = some command)
    (hop : command &&& 0xf0 = 0x90)
    (hn : pgm_read_byte s.score_start (s.score_cursor + 1) = some note) :
    step oe (fuel + 1) s =
      step oe fuel (playNote (command &&& 0x0f) note
        { s with score_cursor := s.score_cursor + 2, all_muted := !oe }) := by
  rw [step]
  simp only [hr, hop, hn, TUNE_OP_STOPNOTE, TUNE_OP_PLAYNOTE, if_true]
  rfl

theorem step_wait (oe : Bool) (fuel : Nat) (s : State) (command b : Nat)
    (hr : pgm_read_byte s.score_start s.score_cursor = some command)
    (hop : command &&& 0xf0 < 0x80)
    (hn : pgm_read_byte s.score_start (s.score_cursor + 1) = some b) :
    step oe (fuel + 1) s =
      some { s with score_cursor := s.score_cursor + 2,
                    duration := toInt32 ((command <<< 8) ||| b) } := by
  have h1 : command &&& 0xf0 ≠ 0x80 := by omega
  have h2 : command &&& 0xf0 ≠ 0x90 := by omega
  rw [step]
  simp only [hr, hn, TUNE_OP_STOPNOTE, TUNE_OP_PLAYNOTE, if_neg h1, if_neg h2, if_pos hop]

theorem ZeroCmd.apply_cursor (oe : Bool) (c : ZeroCmd) (k : Nat) (s : State) :
    c.apply oe { s with score_cursor := k } = { c.apply oe s with score_cursor := k } := by
  cases c with
  | noteOn chan note => exact playNote_cursor chan note k { s with all_muted := !oe }
  | noteOff chan => exact stopNote_cursor chan k s

theorem applyRun_cursor (oe : Bool) (run : List ZeroCmd) :
    ∀ (k : Nat) (s : State),
      applyRun oe run { s with score_cursor := k } =
        { applyRun oe run s with score_cursor := k } := by
  induction run with
  | nil => intro k s; rfl
  | cons c run ih =>
    intro k s
    show applyRun oe run (c.apply oe { s with score_cursor := k }) = _
    rw [ZeroCmd.apply_cursor, ih]
    rfl

theorem playNote_score_start (chan note : Nat) (s : State) :
    (playNote chan note s).score_start = s.score_start := by
  unfold playNote updateSpeaker
  dsimp only
  split_ifs <;> rfl

theorem stopNote_score_start (chan : Nat) (s : State) :
    (stopNote chan s).score_start = s.score_start := by
  unfold stopNote updateSpeaker
  dsimp only
  split_ifs <;> rfl

theorem ZeroCmd.apply_score_start (oe : Bool) (c : ZeroCmd) (s : State) :
    (c.apply oe s).score_start = s.score_start := by
  cases c with
  | noteOn chan note => exact playNote_score_start chan note _
  | noteOff chan => exact stopNote_score_start chan s

/-- The decode loop on a run of zero-duration commands followed by a wait:
with one unit of fuel per command it applies the run in order and stops just
past the wait with the countdown seeded. -/
theorem step_run (oe : Bool) (hi lo : Nat) (rest : List Nat) (hhi : hi < 128) (hlo : lo < 256)
    (run : List ZeroCmd) :
    (∀ c ∈ run, c.valid) →
    ∀ (pre : List Nat) (s : State) (fuel : Nat),
      s.score_start = pre ++ (encodeRun run ++ hi :: lo :: rest) →
      s.score_cursor = pre.length → run.length + 1 ≤ fuel →
      step oe fuel s =
        some { applyRun oe run s with
                 score_cursor := pre.length + (encodeRun run).length + 2,
                 duration := 256 * (hi : Int) + (lo : Int) } := by
  induction run with
  | nil =>
    intro _ pre s fuel hs hc hf
    obtain ⟨f, rfl⟩ : ∃ f, fuel = f + 1 := ⟨fuel - 1, by simp at hf; omega⟩
    have hs1 : s.score_start = pre ++ hi :: lo :: rest := by simpa [encodeRun] using hs
    have hr0 : pgm_read_byte s.score_start s.score_cursor = some (hi % 256) := by
      rw [hs1, hc]; exact pgm_read_byte_at pre hi (lo :: rest)
    have hr1 : pgm_read_byte s.score_start (s.score_cursor + 1) = some (lo % 256) := by
      rw [hs1, hc]; exact pgm_read_byte_at_succ pre hi lo rest
    rw [step_wait oe f s _ _ hr0 (opcode_wait hi hhi) hr1, wait_value hi lo hhi hlo, hc]
    simp [encodeRun, applyRun]
  | cons c run ih =>
    intro hv pre s fuel hs hc hf
    obtain ⟨f, rfl⟩ : ∃ f, fuel = f + 1 := ⟨fuel - 1, by simp at hf; omega⟩
    have hf1 : run.length + 1 ≤ f := by simpa using hf
    have hvc : c.valid := hv c (List.mem_cons_self _ _)
    have hvr : ∀ d ∈ run, d.valid := fun d hd => hv d (List.mem_cons_of_mem _ hd)
    cases c with
    | noteOn chan note =>
      obtain ⟨hchan, hnote⟩ := hvc
      have hs1 : s.score_start =
          pre ++ (0x90 + chan) :: note :: (encodeRun run ++ hi :: lo :: rest) := by
        simpa [encodeRun, ZeroCmd.encode] using hs
      have hr0 : pgm_read_byte s.score_start s.score_cursor = some ((0x90 + chan) % 256) := by
        rw [hs1, hc]; exact pgm_read_byte_at pre _ _
      have hr1 : pgm_read_byte s.score_start (s.score_cursor + 1) = some note := by
        rw [hs1, hc, pgm_read_byte_at_succ pre _ note _, Nat.mod_eq_of_lt (by omega)]
      rw [step_playnote oe f s _ _ hr0 (nibbles_noteOn chan hchan).1 hr1,
        (nibbles_noteOn chan hchan).2]
      have key := ih hvr (pre ++ [0x90 + chan, note])
        (playNote chan note { s with score_cursor := s.score_cursor + 2, all_muted := !oe }) f
        (by rw [playNote_score_start]; simpa using hs1)
        (by
          have := playNote_cursor chan note (s.score_cursor + 2) { s with all_muted := !oe }
          rw [show ({ s with score_cursor := s.score_cursor + 2, all_muted := !oe } : State) =
            { ({ s with all_muted := !oe } : State) with score_cursor := s.score_cursor + 2 }
            from rfl, this]
          simp [hc])
        hf1
      rw [key]
      have e1 : playNote chan note { s with score_cursor := s.score_cursor + 2, all_muted := !oe } =
          { (ZeroCmd.noteOn chan note).apply oe s with score_cursor := s.score_cursor + 2 } :=
        playNote_cursor chan note (s.score_cursor + 2) { s with all_muted := !oe }
      rw [e1, applyRun_cursor]
      simp [encodeRun, ZeroCmd.encode, applyRun]
      omega
    | noteOff chan =>
      have hchan : chan < 16 := hvc
      have hs1 : s.score_start =
          pre ++ (0x80 + chan) :: (encodeRun run ++ hi :: lo :: rest) := by
        simpa [encodeRun, ZeroCmd.encode] using hs
      have hr0 : pgm_read_byte s.score_start s.score_cursor = some ((0x80 + chan) % 256) := by
        rw [hs1, hc]; exact pgm_read_byte_at pre _ _
      rw [step_stopnote oe f s _ hr0 (nibbles_noteOff chan hchan).1,
        (nibbles_noteOff chan hchan).2]
      have key := ih hvr (pre ++ [0x80 + chan])
        (stopNote chan { s with score_cursor := s.score_cursor + 1 }) f
        (by rw [stopNote_score_start]; simpa using hs1)
        (by rw [stopNote_cursor]; simp [hc])
        hf1
      have e1 : stopNote chan { s with score_cursor := s.score_cursor + 1 } =
          { (ZeroCmd.noteOff chan).apply oe s with score_cursor := s.score_cursor + 1 } :=
        stopNote_cursor chan (s.score_cursor + 1) s
      rw [key, e1, applyRun_cursor]
      simp [encodeRun, ZeroCmd.encode, applyRun]
      omega

theorem TimerCallback_decrement (oe : Bool) (fuel : Nat) (s : State) (h : 1 < s.duration) :
    TimerCallback oe fuel s = some { s with duration := s.duration - 1 } := by
  unfold TimerCallback
  have h1 : s.duration > 0 := by omega
  have h2 : ¬ (s.duration - 1 = 0) := by omega
  simp only [h1, h2, if_true, if_false]

theorem TimerCallback_expire (oe : Bool) (fuel : Nat) (s : State) (h : s.duration = 1) :
    TimerCallback oe fuel s =
      if s.tone_playing then
        (if s.tune_playing then step oe fuel (silenceAll { s with duration := 0 })
         else some (silenceAll { s with duration := 0 }))
      else
        (if s.tune_playing then step oe fuel { s with duration := 0 }
         else some { s with duration := 0 }) := by
  unfold TimerCallback
  have h1 : s.duration > 0 := by omega
  have h2 : s.duration - 1 = 0 := by omega
  simp only [h1, h2, if_true]
  cases s.tone_playing <;> rfl

theorem TimerCallback_idle (oe : Bool) (fuel : Nat) (s : State) (h : s.duration ≤ 0) :
    TimerCallback oe fuel s = some s := by
  unfold TimerCallback
  have h1 : ¬ s.duration > 0 := by omega
  simp only [h1, if_false]

theorem ticks_add (oe : Bool) (fuel : Nat) (a b : Nat) :
    ∀ s : State, ticks oe fuel (a + b) s = (ticks oe fuel a s).bind (ticks oe fuel b) := by
  induction a with
  | zero => intro s; simp [ticks]
  | succ a ih =>
    intro s
    rw [Nat.add_right_comm]
    simp only [ticks]
    cases h : TimerCallback oe fuel s with
    | none => rfl
    | some s1 => simpa using ih s1

theorem ticks_one (oe : Bool) (fuel : Nat) (s : State) :
    ticks oe fuel 1 s = TimerCallback oe fuel s := by
  simp only [ticks]
  cases TimerCallback oe fuel s <;> rfl

/-- While the countdown stays above zero, `k` ticks lower it by `k` and change
nothing else. -/
theorem ticks_countdown (oe : Bool) (fuel : Nat) (k : Nat) :
    ∀ s : State, (k : Int) < s.duration →
      ticks oe fuel k s = some { s with duration := s.duration - (k : Int) } := by
  induction k with
  | zero => intro s _; simp [ticks]
  | succ k ih =>
    intro s h
    have h1 : 1 < s.duration := by push_cast at h; omega
    simp only [ticks, TimerCallback_decrement oe fuel s h1, Option.some_bind]
    rw [ih _ (by show (k : Int) < s.duration - 1; push_cast at h; omega)]
    simp only [Option.some.injEq]
    show ({ s with duration := s.duration - 1 - (k : Int) } : State) = _
    congr 1
    push_cast
    omega

/-- An accepted tone request, written out field by field. -/
theorem tone_accepted (f d : Nat) (s : State) (h : s._tune_num_chans = 2) :
    tone true f d s =
      { s with tone_playing := true, mute_score := s.tone_mutes_score,
               sine2_amplitude := Amplitude.zero,
               sine1_amplitude := Amplitude.ARCADA_MAX_VOLUME,
               playing_chan0 := true, playing_chan1 := false,
               sine1_frequency := f % 2 ^ 32, duration := toInt32 d, speaker := true } := by
  unfold tone
  simp [h, updateSpeaker]

theorem toInt32_of_lt (d : Nat) (h : d < 2 ^ 31) : toInt32 d = (d : Int) := by
  unfold toInt32
  have h1 : d % 2 ^ 32 = d := Nat.mod_eq_of_lt (by omega)
  rw [h1, if_pos h]

/-- The tone-stop block of `TimerCallback` does not write `tone_playing`: at the
state after `initChannel` and `tone(440, 1)` the flag is still set after the
tick that silenced the tone. -/
theorem TimerCallback_leaves_tone_playing :
    (TimerCallback true 1 toneAlone).map (fun s => (s.tone_playing, s.sine1_amplitude)) =
      some (true, Amplitude.zero) := by
  decide

/-! ## C1: playScore executes the leading zero-duration commands -/

/-- C1: with two channels initialised and the sound-enabled predicate true,
for every score that starts with a run of zero-duration commands (note-on with
note at most 127, note-off) followed by a wait command, `playScore` returns
(given one unit of fuel per decoded command) the state in which every command
of the run has been applied in order, the countdown is the wait's duration
`256 * hi + lo`, the cursor is just past the wait and `playing()` is true; no
tick is involved.  When the run is note-on(channel 0), note-on(channel 1),
both channels are active (full amplitude, speaker enabled) after the call. -/
theorem playScore_executes_leading_commands (s : State) (run : List ZeroCmd)
    (hi lo : Nat) (rest : List Nat) (fuel : Nat)
    (hchans : s._tune_num_chans = 2)
    (hvalid : ∀ c ∈ run, c.valid) (hhi : hi < 128) (hlo : lo < 256)
    (hfuel : run.length + 1 ≤ fuel) :
    ∃ s', playScore true fuel (encodeRun run ++ hi :: lo :: rest) s = some s' ∧
      s' = { applyRun true run
               { s with score_start := encodeRun run ++ hi :: lo :: rest, score_cursor := 0 } with
             score_cursor := (encodeRun run).length + 2,
             duration := 256 * (hi : Int) + (lo : Int),
             tune_playing := true } ∧
      playing s' = true ∧
      (∀ n0 n1, run = [ZeroCmd.noteOn 0 n0, ZeroCmd.noteOn 1 n1] →
        s'.playing_chan0 = true ∧ s'.playing_chan1 = true ∧
        s'.sine1_amplitude = Amplitude.ARCADA_MAX_VOLUME ∧
        s'.sine2_amplitude = Amplitude.ARCADA_MAX_VOLUME ∧ s'.speaker = true) := by
  have h := step_run true hi lo rest hhi hlo run hvalid []
    { s with score_start := encodeRun run ++ hi :: lo :: rest, score_cursor := 0 } fuel
    (by simp) rfl hfuel
  refine ⟨_, ?_, rfl, rfl, ?_⟩
  · unfold playScore
    rw [h]
    simp
  · intro n0 n1 hrun
    subst hrun
    have v0 : (ZeroCmd.noteOn 0 n0).valid := hvalid _ (by simp)
    have v1 : (ZeroCmd.noteOn 1 n1).valid := hvalid _ (by simp)
    have hn0 : n0 ≤ 127 := v0.2
    have hn1 : n1 ≤ 127 := v1.2
    have g0 : ¬ n0 > 127 := by omega
    have g1 : ¬ n1 > 127 := by omega
    simp [applyRun, ZeroCmd.apply, playNote, updateSpeaker, hchans, g0, g1]

/-- C1 at a concrete score: note-on(0, 60), note-on(1, 64), wait 1000 ms, stop. -/
theorem playScore_executes_leading_commands_witness :
    ∃ s', playScore true 3
        (encodeRun [ZeroCmd.noteOn 0 60, ZeroCmd.noteOn 1 64] ++ 3 :: 232 :: [0xf0])
        (initChannel powerOn) = some s' ∧
      s' = { applyRun true [ZeroCmd.noteOn 0 60, ZeroCmd.noteOn 1 64]
               { initChannel powerOn with
                 score_start :=
                   encodeRun [ZeroCmd.noteOn 0 60, ZeroCmd.noteOn 1 64] ++ 3 :: 232 :: [0xf0],
                 score_cursor := 0 } with
             score_cursor := (encodeRun [ZeroCmd.noteOn 0 60, ZeroCmd.noteOn 1 64]).length + 2,
             duration := 256 * ((3 : Nat) : Int) + ((232 : Nat) : Int),
             tune_playing := true } ∧
      playing s' = true ∧
      (∀ n0 n1, [ZeroCmd.noteOn 0 60, ZeroCmd.noteOn 1 64] =
          [ZeroCmd.noteOn 0 n0, ZeroCmd.noteOn 1 n1] →
        s'.playing_chan0 = true ∧ s'.playing_chan1 = true ∧
        s'.sine1_amplitude = Amplitude.ARCADA_MAX_VOLUME ∧
        s'.sine2_amplitude = Amplitude.ARCADA_MAX_VOLUME ∧ s'.speaker = true) :=
  playScore_executes_leading_commands (initChannel powerOn)
    [ZeroCmd.noteOn 0 60, ZeroCmd.noteOn 1 64] 3 232 [0xf0] 3 rfl
    (by
      intro c hc
      simp only [List.mem_cons, List.mem_singleton, List.not_mem_nil, or_false] at hc
      rcases hc with rfl | rfl <;> exact ⟨by decide, by decide⟩)
    (by decide) (by decide) (by decide)

/-! ## C2: a wait of n ms lasts exactly n ticks -/

/-- C2: for every wait duration `n` with `1 ≤ n ≤ 32767`, from a state whose
countdown is `n` (as `step()` leaves it after a wait of `n` ms), with the score
running and no tone playing: for every `k < n` the state after `k` ticks is the
starting state with the countdown lowered to `n - k` and nothing else changed
(so `step()` has not run, cursor and channels are untouched), each of these
ticks lowering the countdown by exactly one; and the `n`-th tick runs `step()`
exactly once, on the state whose countdown is 0. -/
theorem TimerCallback_wait_lasts_n_ticks (oe : Bool) (fuel : Nat) (s : State) (n : Nat)
    (hn1 : 1 ≤ n) (hn2 : n ≤ 32767) (hd : s.duration = (n : Int))
    (hrun : s.tune_playing = true) (htone : s.tone_playing = false) :
    (∀ k, k < n → ticks oe fuel k s = some { s with duration := (n : Int) - (k : Int) }) ∧
    (∀ k, k + 1 < n →
      TimerCallback oe fuel { s with duration := (n : Int) - (k : Int) } =
        some { s with duration := (n : Int) - (k : Int) - 1 }) ∧
    TimerCallback oe fuel { s with duration := 1 } = step oe fuel { s with duration := 0 } ∧
    ticks oe fuel n s = step oe fuel { s with duration := 0 } := by
  have hcount : ∀ k, k < n →
      ticks oe fuel k s = some { s with duration := (n : Int) - (k : Int) } := by
    intro k hk
    rw [ticks_countdown oe fuel k s (by rw [hd]; exact_mod_cast hk), hd]
  have hlast : TimerCallback oe fuel { s with duration := 1 } =
      step oe fuel { s with duration := 0 } := by
    rw [TimerCallback_expire oe fuel { s with duration := 1 } rfl]
    simp only [htone, hrun, if_true]
    rfl
  refine ⟨hcount, ?_, hlast, ?_⟩
  · intro k hk
    exact TimerCallback_decrement oe fuel { s with duration := (n : Int) - (k : Int) }
      (by show (1 : Int) < (n : Int) - (k : Int); omega)
  · obtain ⟨m, rfl⟩ : ∃ m, n = m + 1 := ⟨n - 1, by omega⟩
    rw [ticks_add, hcount m (by omega), Option.some_bind, ticks_one]
    have e : ({ s with duration := ((m + 1 : Nat) : Int) - (m : Int) } : State) =
        { s with duration := 1 } := by
      congr 1
      push_cast
      omega
    rw [e, hlast]

/-- C2 at the spec's case, a wait of 1000 ms in a running score. -/
theorem TimerCallback_wait_lasts_n_ticks_witness :
    (∀ k, k < 1000 →
      ticks true 4 k { initChannel powerOn with
          score_start := [3, 232, 0x90, 60, 0, 100, 0xf0], score_cursor := 2,
          duration := 1000, tune_playing := true } =
        some { initChannel powerOn with
          score_start := [3, 232, 0x90, 60, 0, 100, 0xf0], score_cursor := 2,
          duration := ((1000 : Nat) : Int) - (k : Int), tune_playing := true }) ∧
    ticks true 4 1000 { initChannel powerOn with
          score_start := [3, 232, 0x90, 60, 0, 100, 0xf0], score_cursor := 2,
          duration := 1000, tune_playing := true } =
      step true 4 { initChannel powerOn with
          score_start := [3, 232, 0x90, 60, 0, 100, 0xf0], score_cursor := 2,
          duration := 0, tune_playing := true } :=
  have h := TimerCallback_wait_lasts_n_ticks true 4
    { initChannel powerOn with
        score_start := [3, 232, 0x90, 60, 0, 100, 0xf0], score_cursor := 2,
        duration := 1000, tune_playing := true } 1000
    (by decide) (by decide) rfl rfl rfl
  ⟨h.1, h.2.2.2⟩

/-! ## C3: the frequency written by playNote -/

/-- C3 (as the code behaves): with two channels initialised, for every channel
`c < 2` and every note `n < 48`, `playNote(c, n)` writes to channel `c` the
entry `n` of the extended-range table `_midi_word_note_frequencies`, which
differs from the entry `n` of the low-range table
`_midi_byte_note_frequencies` that the claim expects. -/
theorem playNote_low_note_reads_word_table (s : State) (c n : Nat)
    (hchans : s._tune_num_chans = 2) (hc : c < 2) (hn : n < 48) :
    channelFrequency c (playNote c n s) = _midi_word_note_frequencies.getD n 0 ∧
    channelFrequency c (playNote c n s) ≠ _midi_byte_note_frequencies.getD n 0 := by
  have hfreq : channelFrequency c (playNote c n s) = _midi_word_note_frequencies.getD n 0 := by
    have g1 : ¬ n > 127 := by omega
    have g2 : ¬ c ≥ 2 := by omega
    unfold playNote
    simp only [hchans, g1, g2, hn, if_true, if_false]
    interval_cases c <;> simp [channelFrequency, updateSpeaker]
  refine ⟨hfreq, ?_⟩
  rw [hfreq]
  have hall : ∀ m, m < 48 →
      _midi_word_note_frequencies.getD m 0 ≠ _midi_byte_note_frequencies.getD m 0 := by
    decide
  exact hall n hn

/-- C3 at notes 0 and 47 on channel 0: the code writes 262 and 3951 where the
low-range table holds 16 and 247; notes 48 and 69 give 262 and 880. -/
theorem playNote_low_note_reads_word_table_witness :
    (channelFrequency 0 (playNote 0 0 (initChannel powerOn)) =
        _midi_word_note_frequencies.getD 0 0 ∧
      channelFrequency 0 (playNote 0 0 (initChannel powerOn)) ≠
        _midi_byte_note_frequencies.getD 0 0) ∧
    (playNote 0 0 (initChannel powerOn)).sine1_frequency = 262 ∧
    _midi_byte_note_frequencies.getD 0 0 = 16 ∧
    (playNote 0 47 (initChannel powerOn)).sine1_frequency = 3951 ∧
    _midi_byte_note_frequencies.getD 47 0 = 247 ∧
    (playNote 0 48 (initChannel powerOn)).sine1_frequency = 262 ∧
    (playNote 0 69 (initChannel powerOn)).sine1_frequency = 880 :=
  ⟨playNote_low_note_reads_word_table (initChannel powerOn) 0 0 rfl (by decide) (by decide),
    by decide, by decide, by decide, by decide, by decide, by decide⟩

/-! ## C4: what the tick that ends a tone does to the channels -/

/-- C4 (counterexample): in the state reached by `initChannel`,
`playScore scoreNoteAfterWait` and `tone(440, 1)` the countdown is 1 and a tone
is playing, yet after one `TimerCallback` channel 0 is active at full amplitude
and the speaker is enabled, because `step()` ran the score's note-on in the same
tick. -/
theorem TimerCallback_tone_expiry_channels_not_silent :
    (playScore true 8 scoreNoteAfterWait (initChannel powerOn)).map (tone true 440 1) =
      some toneOverWaitingScore ∧
    toneOverWaitingScore.duration = 1 ∧ toneOverWaitingScore.tone_playing = true ∧
    (TimerCallback true 8 toneOverWaitingScore).map
        (fun s => (s.playing_chan0, s.sine1_amplitude, s.speaker)) =
      some (true, Amplitude.ARCADA_MAX_VOLUME, true) := by
  decide

/-- C4 (amended): for every state in which the countdown is 1 and a tone is
playing, one call of `TimerCallback` first brings the state to one in which
both channels are inactive with amplitude 0, the speaker is disabled and the
countdown is 0 (score buffer, cursor and running flag untouched); when the score
is not running that state is the result of the call, and when the score is
running `step()` is run on it within the same call. -/
theorem TimerCallback_tone_expiry_silences (oe : Bool) (fuel : Nat) (s : State)
    (hd : s.duration = 1) (ht : s.tone_playing = true) :
    ∃ t : State,
      t.playing_chan0 = false ∧ t.playing_chan1 = false ∧
      t.sine1_amplitude = Amplitude.zero ∧ t.sine2_amplitude = Amplitude.zero ∧
      t.speaker = false ∧ t.duration = 0 ∧
      t.score_start = s.score_start ∧ t.score_cursor = s.score_cursor ∧
      t.tune_playing = s.tune_playing ∧
      TimerCallback oe fuel s = if s.tune_playing then step oe fuel t else some t := by
  refine ⟨silenceAll { s with duration := 0 }, rfl, rfl, rfl, rfl, rfl, rfl, rfl, rfl, rfl, ?_⟩
  rw [TimerCallback_expire oe fuel s hd]
  simp only [ht, if_true]

/-- C4 (amended) at the state after `initChannel` and `tone(440, 1)`. -/
theorem TimerCallback_tone_expiry_silences_witness :
    ∃ t : State,
      t.playing_chan0 = false ∧ t.playing_chan1 = false ∧
      t.sine1_amplitude = Amplitude.zero ∧ t.sine2_amplitude = Amplitude.zero ∧
      t.speaker = false ∧ t.duration = 0 ∧
      t.score_start = toneAlone.score_start ∧ t.score_cursor = toneAlone.score_cursor ∧
      t.tune_playing = toneAlone.tune_playing ∧
      TimerCallback true 1 toneAlone =
        if toneAlone.tune_playing then step true 1 t else some t :=
  TimerCallback_tone_expiry_silences true 1 toneAlone rfl rfl

/-! ## C5: tone-stop and score-resume in the same tick -/

/-- C5 (counterexample): in the state reached by `initChannel`,
`playScore scoreTwoCommandsAfterWait` and `tone(880, 1)` the countdown is 1, a
tone is playing and the score is running; the `TimerCallback` call that brings
the countdown to zero moves the cursor from 2 to 7 and leaves channel 1 active:
`step()` ran and executed the score's note-on and note-off. -/
theorem TimerCallback_tone_expiry_runs_step :
    (playScore true 8 scoreTwoCommandsAfterWait (initChannel powerOn)).map (tone true 880 1) =
      some toneOverTwoCommands ∧
    toneOverTwoCommands.duration = 1 ∧ toneOverTwoCommands.tone_playing = true ∧
    toneOverTwoCommands.tune_playing = true ∧ toneOverTwoCommands.score_cursor = 2 ∧
    (TimerCallback true 8 toneOverTwoCommands).map
        (fun s => (s.score_cursor, s.playing_chan1, s.sine2_frequency, s.duration)) =
      some (7, true, 1047, 500) := by
  decide

/-- C5 (amended): for every state in which the countdown is 1, a tone is
playing and the score is running, the call of `TimerCallback` that brings the
countdown to zero applies the tone-stop (both amplitudes 0, both channels
inactive, speaker disabled) and then invokes `step()` on the resulting state in
the same tick: the two checks are successive, tone-stop first. -/
theorem TimerCallback_tone_stop_then_step (oe : Bool) (fuel : Nat) (s : State)
    (hd : s.duration = 1) (ht : s.tone_playing = true) (hr : s.tune_playing = true) :
    TimerCallback oe fuel s =
      step oe fuel
        { s with duration := 0, sine1_amplitude := Amplitude.zero,
                 sine2_amplitude := Amplitude.zero, playing_chan0 := false,
                 playing_chan1 := false, speaker := false } := by
  rw [TimerCallback_expire oe fuel s hd]
  simp only [ht, hr, if_true]
  rfl

/-- C5 (amended) at the state after `initChannel`,
`playScore scoreTwoCommandsAfterWait` and `tone(880, 1)`. -/
theorem TimerCallback_tone_stop_then_step_witness :
    TimerCallback true 8 toneOverTwoCommands =
      step true 8
        { toneOverTwoCommands with
          duration := 0, sine1_amplitude := Amplitude.zero,
          sine2_amplitude := Amplitude.zero, playing_chan0 := false,
          playing_chan1 := false, speaker := false } :=
  TimerCallback_tone_stop_then_step true 8 toneOverTwoCommands rfl rfl rfl

/-! ## C6: a note-on while the host predicate is false -/

/-- C6 (as the code behaves): with two channels initialised, when `step()`
executes a note-on (command byte `0x90 + c` with `c < 2`, note `n ≤ 127`) while
the sound-enabled predicate returns false, the loop continues from a state in
which `all_muted` is set but channel `c` is active at amplitude
`ARCADA_MAX_VOLUME` (not 0) with the speaker enabled; `tune_playing` is
unchanged and the cursor is two bytes further. -/
theorem step_noteOn_muted_full_amplitude (fuel : Nat) (s : State) (c n : Nat)
    (hchans : s._tune_num_chans = 2) (hc : c < 2) (hn : n ≤ 127)
    (hr0 : pgm_read_byte s.score_start s.score_cursor = some (0x90 + c))
    (hr1 : pgm_read_byte s.score_start (s.score_cursor + 1) = some n) :
    ∃ t : State,
      step false (fuel + 1) s = step false fuel t ∧
      channelAmplitude c t = Amplitude.ARCADA_MAX_VOLUME ∧
      channelAmplitude c t ≠ Amplitude.zero ∧
      channelActive c t = true ∧ t.speaker = true ∧ t.all_muted = true ∧
      t.tune_playing = s.tune_playing ∧ t.score_cursor = s.score_cursor + 2 := by
  have hnib : ∀ k, k < 2 → (0x90 + k) &&& 0xf0 = 0x90 ∧ (0x90 + k) &&& 0x0f = k := by decide
  have g1 : ¬ n > 127 := by omega
  have g2 : ¬ c ≥ 2 := by omega
  refine ⟨playNote c n { s with score_cursor := s.score_cursor + 2, all_muted := !false }, ?_, ?_⟩
  · rw [step_playnote false fuel s _ _ hr0 (hnib c hc).1 hr1, (hnib c hc).2]
  · unfold playNote
    simp only [hchans, g1, g2, if_false]
    interval_cases c <;> simp [channelAmplitude, channelActive, updateSpeaker]

/-- C6 at a concrete input: a running score at note-on (channel 0, note 60),
wait 100 ms, with the predicate false; after `step()` channel 0 has amplitude
`ARCADA_MAX_VOLUME` and the speaker is enabled. -/
theorem step_noteOn_muted_full_amplitude_witness :
    (∃ t : State,
      step false (1 + 1) atNoteOn = step false 1 t ∧
      channelAmplitude 0 t = Amplitude.ARCADA_MAX_VOLUME ∧
      channelAmplitude 0 t ≠ Amplitude.zero ∧
      channelActive 0 t = true ∧ t.speaker = true ∧ t.all_muted = true ∧
      t.tune_playing = atNoteOn.tune_playing ∧ t.score_cursor = atNoteOn.score_cursor + 2) ∧
    (step false 2 atNoteOn).map
        (fun s => (s.sine1_amplitude, s.playing_chan0, s.speaker, s.all_muted, s.tune_playing)) =
      some (Amplitude.ARCADA_MAX_VOLUME, true, true, true, true) :=
  ⟨step_noteOn_muted_full_amplitude 1 atNoteOn 0 60 rfl (by decide) (by decide) rfl rfl,
    by decide⟩

/-! ## C7: channel 0 after a tone has expired -/

/-- C8 (as the code behaves): with two channels initialised and the
sound-enabled predicate true, `tone(f, d)` leaves channel 1 inactive with
amplitude 0 whatever `tone_mutes_score` is, hence also when it is `false` and a
score note was sounding on channel 1; the configured value is copied into
`mute_score`, which nothing reads, and channel 1's frequency is left as it
was. -/
theorem tone_always_silences_channel1 (s : State) (f d : Nat)
    (hchans : s._tune_num_chans = 2) :
    (tone true f d s).playing_chan1 = false ∧
    (tone true f d s).sine2_amplitude = Amplitude.zero ∧
    (tone true f d s).sine2_frequency = s.sine2_frequency ∧
    (tone true f d s).mute_score = s.tone_mutes_score ∧
    (tone true f d s).tone_mutes_score = s.tone_mutes_score := by
  rw [tone_accepted f d s hchans]
  exact ⟨rfl, rfl, rfl, rfl, rfl⟩

/-- C8 at the failing input: two channels initialised, `tone_mutes_score` at
its default `false`, a note sounding on channel 1 (active, full amplitude);
after `tone(440, 10)` channel 1 is inactive with amplitude 0 and `mute_score` is
`false`. -/
theorem tone_always_silences_channel1_witness :
    (noteOnChannel1._tune_num_chans = 2 ∧ noteOnChannel1.tone_mutes_score = false ∧
      noteOnChannel1.playing_chan1 = true ∧
      noteOnChannel1.sine2_amplitude = Amplitude.ARCADA_MAX_VOLUME) ∧
    ((tone true 440 10 noteOnChannel1).playing_chan1 = false ∧
      (tone true 440 10 noteOnChannel1).sine2_amplitude = Amplitude.zero ∧
      (tone true 440 10 noteOnChannel1).sine2_frequency = noteOnChannel1.sine2_frequency ∧
      (tone true 440 10 noteOnChannel1).mute_score = noteOnChannel1.tone_mutes_score ∧
      (tone true 440 10 noteOnChannel1).tone_mutes_score = noteOnChannel1.tone_mutes_score) :=
  ⟨by decide, tone_always_silences_channel1 noteOnChannel1 440 10 (by decide)⟩

/-! ## C9: an accepted tone -/

/-- C9: with two channels initialised and the sound-enabled predicate true, for
every frequency `f` (an `unsigned int`, `f < 2^32`) and every duration
`d < 2^31`, `tone(f, d)` returns with channel 0 active at amplitude
`ARCADA_MAX_VOLUME` and frequency `f`, the speaker enabled, the countdown equal
to `d`, `tone_playing = true` and `mute_score` equal to the configured
`tone_mutes_score`. -/
theorem tone_claims_channel0 (s : State) (f d : Nat)
    (hchans : s._tune_num_chans = 2) (hf : f < 2 ^ 32) (hd : d < 2 ^ 31) :
    (tone true f d s).playing_chan0 = true ∧
    (tone true f d s).sine1_amplitude = Amplitude.ARCADA_MAX_VOLUME ∧
    (tone true f d s).sine1_frequency = f ∧
    (tone true f d s).speaker = true ∧
    (tone true f d s).duration = (d : Int) ∧
    (tone true f d s).tone_playing = true ∧
    (tone true f d s).mute_score = s.tone_mutes_score := by
  rw [tone_accepted f d s hchans]
  exact ⟨rfl, rfl, Nat.mod_eq_of_lt hf, rfl, toInt32_of_lt d hd, rfl, rfl⟩

/-- C9 at `tone(440, 250)` after `initChannel` and `toneMutesScore(true)`. -/
theorem tone_claims_channel0_witness :
    (tone true 440 250 (toneMutesScore true (initChannel powerOn))).playing_chan0 = true ∧
    (tone true 440 250 (toneMutesScore true (initChannel powerOn))).sine1_amplitude =
      Amplitude.ARCADA_MAX_VOLUME ∧
    (tone true 440 250 (toneMutesScore true (initChannel powerOn))).sine1_frequency = 440 ∧
    (tone true 440 250 (toneMutesScore true (initChannel powerOn))).speaker = true ∧
    (tone true 440 250 (toneMutesScore true (initChannel powerOn))).duration = ((250 : Nat) : Int) ∧
    (tone true 440 250 (toneMutesScore true (initChannel powerOn))).tone_playing = true ∧
    (tone true 440 250 (toneMutesScore true (initChannel powerOn))).mute_score =
      (toneMutesScore true (initChannel powerOn)).tone_mutes_score :=
  tone_claims_channel0 (toneMutesScore true (initChannel powerOn)) 440 250 rfl
    (by decide) (by decide)

/-! ## C10: a rejected tone -/

/-- C10: whenever the sound-enabled predicate returns false or fewer than two
channels are initialised (`_tune_num_chans < 2`), `tone(f, d)` is a no-op: for
every `f`, `d` and every such state the whole state after the call equals the
state before it. -/
theorem tone_rejected_is_noop (oe : Bool) (f d : Nat) (s : State)
    (h : oe = false ∨ s._tune_num_chans < 2) :
    tone oe f d s = s := by
  unfold tone
  rcases h with h | h
  · simp [h]
  · simp [h]

/-- C10 at a muted call after `initChannel` and at a call before
`initChannel`. -/
theorem tone_rejected_is_noop_witness :
    tone false 440 250 noteOnChannel1 = noteOnChannel1 ∧
    tone true 440 250 powerOn = powerOn :=
  ⟨tone_rejected_is_noop false 440 250 noteOnChannel1 (Or.inl rfl),
    tone_rejected_is_noop true 440 250 powerOn (Or.inr (by decide))⟩

/-! ## Further lemmas on the decode loop -/

theorem step_restart (oe : Bool) (fuel : Nat) (s : State) (command : Nat)
    (hr : pgm_read_byte s.score_start s.score_cursor = some command)
    (hop : command &&& 0xf0 = 0xe0) :
    step oe (fuel + 1) s = step oe fuel { s with score_cursor := 0 } := by
  rw [step]
  simp only [hr, hop, TUNE_OP_STOPNOTE, TUNE_OP_PLAYNOTE, TUNE_OP_RESTART]
  rfl

theorem step_stop (oe : Bool) (fuel : Nat) (s : State) (command : Nat)
    (hr : pgm_read_byte s.score_start s.score_cursor = some command)
    (hop : command &&& 0xf0 = 0xf0) :
    step oe (fuel + 1) s =
      some { s with score_cursor := s.score_cursor + 1, tune_playing := false } := by
  rw [step]
  simp only [hr, hop, TUNE_OP_STOPNOTE, TUNE_OP_PLAYNOTE, TUNE_OP_RESTART, TUNE_OP_STOP]
  rfl

theorem playNote_rejected (chan note : Nat) (s : State)
    (h : note ≥ 128 ∨ chan ≥ s._tune_num_chans) : playNote chan note s = s := by
  unfold playNote
  rcases h with h | h
  · have h1 : note > 127 := by omega
    simp only [h1, if_true, ite_self]
  · simp only [h, if_true]

/-! ## C12: a note-on outside the caller contract -/

/-- C12: for every channel nibble `c < 16` and note byte `n` with
`n ≥ 128` or `c ≥ _tune_num_chans`, when `step()` decodes the note-on command
(`0x90 + c`, `n`) the loop goes on from the state that differs from the one
before only in the cursor, now past both bytes, and in `all_muted`: the active
flags, amplitudes and frequencies of both channels, the speaker and
`tune_playing` are unchanged. -/
theorem step_noteOn_outside_contract_ignored (oe : Bool) (fuel : Nat) (s : State) (c n : Nat)
    (hc : c < 16) (hbad : n ≥ 128 ∨ c ≥ s._tune_num_chans)
    (hr0 : pgm_read_byte s.score_start s.score_cursor = some (0x90 + c))
    (hr1 : pgm_read_byte s.score_start (s.score_cursor + 1) = some n) :
    ∃ t : State,
      step oe (fuel + 1) s = step oe fuel t ∧
      t = { s with score_cursor := s.score_cursor + 2, all_muted := !oe } ∧
      t.playing_chan0 = s.playing_chan0 ∧ t.playing_chan1 = s.playing_chan1 ∧
      t.sine1_amplitude = s.sine1_amplitude ∧ t.sine2_amplitude = s.sine2_amplitude ∧
      t.sine1_frequency = s.sine1_frequency ∧ t.sine2_frequency = s.sine2_frequency ∧
      t.speaker = s.speaker ∧ t.tune_playing = s.tune_playing ∧
      t.score_cursor = s.score_cursor + 2 := by
  have hnib : ∀ k, k < 16 → (0x90 + k) &&& 0xf0 = 0x90 ∧ (0x90 + k) &&& 0x0f = k := by decide
  refine ⟨{ s with score_cursor := s.score_cursor + 2, all_muted := !oe }, ?_, rfl, rfl, rfl,
    rfl, rfl, rfl, rfl, rfl, rfl, rfl⟩
  rw [step_playnote oe fuel s _ _ hr0 (hnib c hc).1 hr1, (hnib c hc).2]
  exact congrArg (step oe fuel) (playNote_rejected c n _ hbad)

/-- C12 at two concrete inputs: note 200 on channel 0, and note 60 on channel 5,
each followed by a wait of 100 ms, two channels initialised. -/
theorem step_noteOn_outside_contract_ignored_witness :
    (∃ t : State,
      step true (1 + 1) { initChannel powerOn with score_start := [0x90, 200, 0, 100] } =
        step true 1 t ∧
      t = { ({ initChannel powerOn with score_start := [0x90, 200, 0, 100] } : State) with
            score_cursor := 0 + 2, all_muted := !true } ∧
      t.playing_chan0 = false ∧ t.playing_chan1 = false ∧
      t.sine1_amplitude = Amplitude.zero ∧ t.sine2_amplitude = Amplitude.zero ∧
      t.sine1_frequency = 0 ∧ t.sine2_frequency = 0 ∧
      t.speaker = false ∧ t.tune_playing = false ∧
      t.score_cursor = 0 + 2) ∧
    (step true 2 { initChannel powerOn with score_start := [0x90, 200, 0, 100] }).map
        (fun u => (u.playing_chan0, u.sine1_amplitude, u.sine1_frequency, u.speaker,
          u.score_cursor, u.duration)) =
      some (false, Amplitude.zero, 0, false, 4, 100) ∧
    (step true 2 { initChannel powerOn with score_start := [0x95, 60, 0, 100] }).map
        (fun u => (u.playing_chan0, u.playing_chan1, u.sine1_amplitude, u.sine2_amplitude,
          u.speaker, u.score_cursor)) =
      some (false, false, Amplitude.zero, Amplitude.zero, false, 4) :=
  ⟨step_noteOn_outside_contract_ignored true 1
      { initChannel powerOn with score_start := [0x90, 200, 0, 100] } 0 200
      (by decide) (Or.inl (by decide)) rfl rfl,
    by decide, by decide⟩

/-! ## C13: the wait command -/

/-- C13: for every command byte `c < 0x80` and every following byte `b`,
`step()` positioned at that command returns, after this single command and
whatever fuel is left, the state that differs from the one before only in the
countdown, now `256 * c + b` (between 0 and 32767), and in the cursor, advanced by
exactly 2; `tune_playing` and all channel state are unchanged. -/
theorem step_wait_sets_countdown (oe : Bool) (fuel : Nat) (s : State) (c b : Nat)
    (hc : c < 0x80) (hb : b < 256)
    (hr0 : pgm_read_byte s.score_start s.score_cursor = some c)
    (hr1 : pgm_read_byte s.score_start (s.score_cursor + 1) = some b) :
    step oe (fuel + 1) s =
      some { s with score_cursor := s.score_cursor + 2,
                    duration := 256 * (c : Int) + (b : Int) } ∧
    (0 : Int) ≤ 256 * (c : Int) + (b : Int) ∧ 256 * (c : Int) + (b : Int) ≤ 32767 := by
  have hop : c &&& 0xf0 < 0x80 := by
    have := opcode_wait c hc
    rwa [Nat.mod_eq_of_lt (by omega)] at this
  have hv := wait_value c b hc hb
  rw [Nat.mod_eq_of_lt (show c < 256 by omega), Nat.mod_eq_of_lt hb] at hv
  refine ⟨?_, by omega, by omega⟩
  rw [step_wait oe fuel s c b hr0 hop hr1, hv]

/-- C13 at a wait of 1000 ms (bytes 3, 232) in a running score. -/
theorem step_wait_sets_countdown_witness :
    step true (0 + 1) { atNoteOn with score_start := [3, 232, 0xf0] } =
      some { ({ atNoteOn with score_start := [3, 232, 0xf0] } : State) with
             score_cursor := 0 + 2, duration := 256 * ((3 : Nat) : Int) + ((232 : Nat) : Int) } ∧
    (0 : Int) ≤ 256 * ((3 : Nat) : Int) + ((232 : Nat) : Int) ∧
    256 * ((3 : Nat) : Int) + ((232 : Nat) : Int) ≤ 32767 :=
  step_wait_sets_countdown true 0 { atNoteOn with score_start := [3, 232, 0xf0] } 3 232
    (by decide) (by decide) rfl rfl

/-- The calls `stopNote(0); stopNote(1)` leave both channels inactive with
amplitude 0 and the speaker disabled. -/
theorem stopNote_both (s : State) : stopNote 1 (stopNote 0 s) = silenceAll s := by
  cases hb : s.playing_chan1 <;> simp [stopNote, updateSpeaker, silenceAll, hb]

/-! ## C17: closeChannels -/

/-- C17: for every starting state, after `closeChannels()` both channels are
inactive with amplitude 0, the speaker is disabled, `_tune_num_chans` is 0 and
the flags `tune_playing`, `tone_playing`, `mute_score` and `tone_only` are all
false. -/
theorem closeChannels_resets (s : State) :
    (closeChannels s).playing_chan0 = false ∧ (closeChannels s).playing_chan1 = false ∧
    (closeChannels s).sine1_amplitude = Amplitude.zero ∧
    (closeChannels s).sine2_amplitude = Amplitude.zero ∧
    (closeChannels s).speaker = false ∧ (closeChannels s)._tune_num_chans = 0 ∧
    (closeChannels s).tune_playing = false ∧ (closeChannels s).tone_playing = false ∧
    (closeChannels s).mute_score = false ∧ (closeChannels s).tone_only = false := by
  unfold closeChannels
  rw [stopNote_both]
  exact ⟨rfl, rfl, rfl, rfl, rfl, rfl, rfl, rfl, rfl, rfl⟩

/-! ## C20: ticks while the countdown is not positive -/

/-- A state whose countdown is not positive is a fixed point of any number of
ticks. -/
theorem ticks_idle (oe : Bool) (fuel : Nat) (s : State) (h : s.duration ≤ 0) :
    ∀ n, ticks oe fuel n s = some s := by
  intro n
  induction n with
  | zero => rfl
  | succ n ih => simp only [ticks, TimerCallback_idle oe fuel s h, Option.some_bind, ih]

/-- C20: for every state whose countdown is at most 0, `TimerCallback` returns
the state unchanged, and so does any number of ticks.  Hence (i) after `step()`
has executed a wait command with bytes `0x00 0x00` in a running score, the
countdown is 0 and no number of ticks changes the state: the score is never
resumed while `playing()` stays true; (ii) after an accepted `tone(f, 0)` no
number of ticks changes the state: the tone is never stopped. -/
theorem TimerCallback_idle_when_countdown_not_positive (oe : Bool) (fuel : Nat) (s : State) :
    (s.duration ≤ 0 →
      TimerCallback oe fuel s = some s ∧ ∀ n, ticks oe fuel n s = some s) ∧
    (s.tune_playing = true →
      pgm_read_byte s.score_start s.score_cursor = some 0 →
      pgm_read_byte s.score_start (s.score_cursor + 1) = some 0 →
      ∃ t : State, step oe (fuel + 1) s = some t ∧ t.duration = 0 ∧
        t.score_cursor = s.score_cursor + 2 ∧ playing t = true ∧
        ∀ n, ticks oe fuel n t = some t) ∧
    (s._tune_num_chans = 2 →
      ∀ f n, ticks oe fuel n (tone true f 0 s) = some (tone true f 0 s) ∧
        (tone true f 0 s).tone_playing = true ∧ (tone true f 0 s).playing_chan0 = true ∧
        (tone true f 0 s).sine1_amplitude = Amplitude.ARCADA_MAX_VOLUME ∧
        (tone true f 0 s).duration = 0) := by
  refine ⟨fun h => ⟨TimerCallback_idle oe fuel s h, ticks_idle oe fuel s h⟩, ?_, ?_⟩
  · intro hrun hr0 hr1
    have hw := step_wait oe fuel s 0 0 hr0 (by decide) hr1
    refine ⟨_, hw, rfl, rfl, hrun, ?_⟩
    exact ticks_idle oe fuel _ (by show toInt32 ((0 <<< 8) ||| 0) ≤ 0; decide)
  · intro hchans f n
    have hd : (tone true f 0 s).duration = 0 := by
      rw [tone_accepted f 0 s hchans]
      rfl
    refine ⟨ticks_idle oe fuel _ (by rw [hd]) n, ?_, ?_, ?_, hd⟩
    · rw [tone_accepted f 0 s hchans]
    · rw [tone_accepted f 0 s hchans]
    · rw [tone_accepted f 0 s hchans]

/-- C20 at concrete inputs: the power-on state (countdown 0), a running score
at a wait of 0 ms, and `tone(440, 0)` after `initChannel`. -/
theorem TimerCallback_idle_when_countdown_not_positive_witness :
    (TimerCallback true 4 powerOn = some powerOn ∧ ∀ n, ticks true 4 n powerOn = some powerOn) ∧
    (∃ t : State,
      step true (4 + 1) { atNoteOn with score_start := [0, 0, 0x90, 60, 0, 100, 0xf0] } = some t ∧
      t.duration = 0 ∧ t.score_cursor = 0 + 2 ∧ playing t = true ∧
      ∀ n, ticks true 4 n t = some t) ∧
    (∀ n, ticks true 4 n (tone true 440 0 (initChannel powerOn)) =
        some (tone true 440 0 (initChannel powerOn)) ∧
      (tone true 440 0 (initChannel powerOn)).tone_playing = true ∧
      (tone true 440 0 (initChannel powerOn)).playing_chan0 = true ∧
      (tone true 440 0 (initChannel powerOn)).sine1_amplitude = Amplitude.ARCADA_MAX_VOLUME ∧
      (tone true 440 0 (initChannel powerOn)).duration = 0) :=
  ⟨(TimerCallback_idle_when_countdown_not_positive true 4 powerOn).1 (by decide),
    (TimerCallback_idle_when_countdown_not_positive true 4
      { atNoteOn with score_start := [0, 0, 0x90, 60, 0, 100, 0xf0] }).2.1 rfl rfl rfl,
    fun n => (TimerCallback_idle_when_countdown_not_positive true 4
      (initChannel powerOn)).2.2 rfl 440 n⟩

/-! ## C16: stopScore -/

theorem stopNote_silenceAll (n : Nat) (hn : 2 ≤ n) (s : State) :
    stopNote n (silenceAll s) = silenceAll s := by
  have h0 : n ≠ 0 := by omega
  have h1 : n ≠ 1 := by omega
  simp [stopNote, updateSpeaker, silenceAll, h0, h1]

theorem stopNote_loop (s : State) :
    ∀ n, 2 ≤ n → (List.range n).foldl (fun acc i => stopNote i acc) s = silenceAll s := by
  intro n hn
  induction n, hn using Nat.le_induction with
  | base => exact stopNote_both s
  | succ n hn ih =>
    rw [List.range_succ, List.foldl_append, ih]
    exact stopNote_silenceAll n hn s

theorem stopScore_of_two_le (s : State) (h : 2 ≤ s._tune_num_chans) :
    stopScore s = { silenceAll s with tune_playing := false } := by
  unfold stopScore
  simp only [stopNote_loop s _ h]

theorem stopScore_of_zero (s : State) (h : s._tune_num_chans = 0) :
    stopScore s = { s with tune_playing := false } := by
  unfold stopScore
  simp [h]

theorem stopScore_of_one (s : State) (h : s._tune_num_chans = 1) :
    stopScore s =
      { s with sine1_amplitude := Amplitude.zero, playing_chan0 := false,
               speaker := s.playing_chan1, tune_playing := false } := by
  unfold stopScore
  cases hb : s.playing_chan1 <;> simp [h, List.range_succ, stopNote, updateSpeaker, hb]

/-- C16: for every state with two channels initialised, `stopScore()` leaves
both channels inactive with amplitude 0, the speaker disabled and
`playing() = false`; and for every starting state, whatever its channel count,
calling `stopScore()` twice in a row yields exactly the state that one call
yields. -/
theorem stopScore_silences_and_idempotent (s : State) :
    (s._tune_num_chans = 2 →
      (stopScore s).playing_chan0 = false ∧ (stopScore s).playing_chan1 = false ∧
      (stopScore s).sine1_amplitude = Amplitude.zero ∧
      (stopScore s).sine2_amplitude = Amplitude.zero ∧
      (stopScore s).speaker = false ∧ playing (stopScore s) = false) ∧
    stopScore (stopScore s) = stopScore s := by
  constructor
  · intro h
    rw [stopScore_of_two_le s (by omega)]
    exact ⟨rfl, rfl, rfl, rfl, rfl, rfl⟩
  · rcases Nat.lt_or_ge s._tune_num_chans 2 with h | h
    · have h01 : s._tune_num_chans = 0 ∨ s._tune_num_chans = 1 := by omega
      rcases h01 with h0 | h1
      · rw [stopScore_of_zero s h0]
        exact stopScore_of_zero _ h0
      · rw [stopScore_of_one s h1]
        exact stopScore_of_one _ h1
    · rw [stopScore_of_two_le s h]
      exact stopScore_of_two_le _ h

/-- C16 at the state with a note sounding on channel 1. -/
theorem stopScore_silences_and_idempotent_witness :
    (stopScore noteOnChannel1).playing_chan0 = false ∧
    (stopScore noteOnChannel1).playing_chan1 = false ∧
    (stopScore noteOnChannel1).sine1_amplitude = Amplitude.zero ∧
    (stopScore noteOnChannel1).sine2_amplitude = Amplitude.zero ∧
    (stopScore noteOnChannel1).speaker = false ∧ playing (stopScore noteOnChannel1) = false :=
  (stopScore_silences_and_idempotent noteOnChannel1).1 (by decide)

/-! ## C14: a stop command reached by playScore -/

theorem state_cursor_eta (s : State) (k : Nat) (h : s.score_cursor = k) :
    ({ s with score_cursor := k } : State) = s := by
  subst h
  rfl

/-- The decode loop on a run of zero-duration commands followed by anything:
after one unit of fuel per command the loop stands just past the run with the
run applied in order. -/
theorem step_prefix (oe : Bool) (tail : List Nat) (run : List ZeroCmd) :
    (∀ c ∈ run, c.valid) →
    ∀ (pre : List Nat) (s : State) (f : Nat),
      s.score_start = pre ++ (encodeRun run ++ tail) →
      s.score_cursor = pre.length →
      step oe (run.length + f) s =
        step oe f { applyRun oe run s with
                    score_cursor := pre.length + (encodeRun run).length } := by
  induction run with
  | nil =>
    intro _ pre s f _ hc
    have e : ({ applyRun oe [] s with
        score_cursor := pre.length + (encodeRun []).length } : State) = s :=
      state_cursor_eta s _ (by simpa [encodeRun] using hc)
    rw [e]
    simp
  | cons c run ih =>
    intro hv pre s f hs hc
    have hvc : c.valid := hv c (List.mem_cons_self _ _)
    have hvr : ∀ d ∈ run, d.valid := fun d hd => hv d (List.mem_cons_of_mem _ hd)
    have hfuel : (c :: run).length + f = (run.length + f) + 1 := by
      simp only [List.length_cons]
      omega
    rw [hfuel]
    cases c with
    | noteOn chan note =>
      obtain ⟨hchan, hnote⟩ := hvc
      have hs1 : s.score_start =
          pre ++ (0x90 + chan) :: note :: (encodeRun run ++ tail) := by
        simpa [encodeRun, ZeroCmd.encode] using hs
      have hr0 : pgm_read_byte s.score_start s.score_cursor = some ((0x90 + chan) % 256) := by
        rw [hs1, hc]; exact pgm_read_byte_at pre _ _
      have hr1 : pgm_read_byte s.score_start (s.score_cursor + 1) = some note := by
        rw [hs1, hc, pgm_read_byte_at_succ pre _ note _, Nat.mod_eq_of_lt (by omega)]
      rw [step_playnote oe _ s _ _ hr0 (nibbles_noteOn chan hchan).1 hr1,
        (nibbles_noteOn chan hchan).2]
      have e1 : playNote chan note { s with score_cursor := s.score_cursor + 2, all_muted := !oe } =
          { (ZeroCmd.noteOn chan note).apply oe s with score_cursor := s.score_cursor + 2 } :=
        playNote_cursor chan note (s.score_cursor + 2) { s with all_muted := !oe }
      have key := ih hvr (pre ++ [0x90 + chan, note])
        ({ (ZeroCmd.noteOn chan note).apply oe s with score_cursor := s.score_cursor + 2 }) f
        (by
          show ((ZeroCmd.noteOn chan note).apply oe s).score_start = _
          rw [ZeroCmd.apply_score_start]
          simpa using hs1)
        (by
          show s.score_cursor + 2 = _
          simp [hc])
      rw [e1, key, applyRun_cursor]
      have e2 : (pre ++ [0x90 + chan, note]).length + (encodeRun run).length =
          pre.length + (encodeRun (ZeroCmd.noteOn chan note :: run)).length := by
        simp [encodeRun, ZeroCmd.encode]
        omega
      rw [e2]
      rfl
    | noteOff chan =>
      have hchan : chan < 16 := hvc
      have hs1 : s.score_start =
          pre ++ (0x80 + chan) :: (encodeRun run ++ tail) := by
        simpa [encodeRun, ZeroCmd.encode] using hs
      have hr0 : pgm_read_byte s.score_start s.score_cursor = some ((0x80 + chan) % 256) := by
        rw [hs1, hc]; exact pgm_read_byte_at pre _ _
      rw [step_stopnote oe _ s _ hr0 (nibbles_noteOff chan hchan).1,
        (nibbles_noteOff chan hchan).2]
      have e1 : stopNote chan { s with score_cursor := s.score_cursor + 1 } =
          { (ZeroCmd.noteOff chan).apply oe s with score_cursor := s.score_cursor + 1 } :=
        stopNote_cursor chan (s.score_cursor + 1) s
      have key := ih hvr (pre ++ [0x80 + chan])
        ({ (ZeroCmd.noteOff chan).apply oe s with score_cursor := s.score_cursor + 1 }) f
        (by
          show ((ZeroCmd.noteOff chan).apply oe s).score_start = _
          rw [ZeroCmd.apply_score_start]
          simpa using hs1)
        (by
          show s.score_cursor + 1 = _
          simp [hc])
      rw [e1, key, applyRun_cursor]
      have e2 : (pre ++ [0x80 + chan]).length + (encodeRun run).length =
          pre.length + (encodeRun (ZeroCmd.noteOff chan :: run)).length := by
        simp [encodeRun, ZeroCmd.encode]
        omega
      rw [e2]
      rfl

theorem applyRun_score_start (oe : Bool) (run : List ZeroCmd) :
    ∀ s : State, (applyRun oe run s).score_start = s.score_start := by
  induction run with
  | nil => intro s; rfl
  | cons c run ih =>
    intro s
    show (applyRun oe run (c.apply oe s)).score_start = _
    rw [ih, ZeroCmd.apply_score_start]

/-- C14 (as the code behaves): for every score whose first command batch is a
run of zero-duration commands followed by a stop command (`0xF0`),
`playScore(score)` returns with the channel state exactly as the run produced
it and the cursor just past the stop, but with `tune_playing` set: `step()`
cleared the flag at the stop and `playScore` then sets it unconditionally, so
`playing()` is true, not false. -/
theorem playScore_stop_leaves_playing_true (oe : Bool) (s : State) (run : List ZeroCmd)
    (rest : List Nat) (fuel : Nat)
    (hvalid : ∀ c ∈ run, c.valid) (hfuel : run.length + 1 ≤ fuel) :
    ∃ s', playScore oe fuel (encodeRun run ++ 0xf0 :: rest) s = some s' ∧
      s' = { applyRun oe run
               { s with score_start := encodeRun run ++ 0xf0 :: rest, score_cursor := 0 } with
             score_cursor := (encodeRun run).length + 1, tune_playing := true } ∧
      playing s' = true := by
  obtain ⟨f, rfl⟩ : ∃ f, fuel = run.length + (f + 1) := ⟨fuel - run.length - 1, by omega⟩
  have h1 := step_prefix oe (0xf0 :: rest) run hvalid []
    { s with score_start := encodeRun run ++ 0xf0 :: rest, score_cursor := 0 } (f + 1)
    (by simp) rfl
  have hr : pgm_read_byte
      ({ applyRun oe run
          { s with score_start := encodeRun run ++ 0xf0 :: rest, score_cursor := 0 } with
        score_cursor := ([] : List Nat).length + (encodeRun run).length } : State).score_start
      ({ applyRun oe run
          { s with score_start := encodeRun run ++ 0xf0 :: rest, score_cursor := 0 } with
        score_cursor := ([] : List Nat).length + (encodeRun run).length } : State).score_cursor
      = some 0xf0 := by
    show pgm_read_byte (applyRun oe run _).score_start (([] : List Nat).length + _) = _
    rw [applyRun_score_start]
    simpa using pgm_read_byte_at (encodeRun run) 0xf0 rest
  have h2 := step_stop oe f _ 0xf0 hr (by decide)
  refine ⟨_, ?_, rfl, rfl⟩
  unfold playScore
  rw [h1, h2]
  simp

/-- C14 at the score note-on (channel 0, note 60), stop: after `playScore`
channel 0 is active as the note-on left it and `playing()` is true. -/
theorem playScore_stop_leaves_playing_true_witness :
    (∃ s', playScore true 2 (encodeRun [ZeroCmd.noteOn 0 60] ++ 0xf0 :: []) (initChannel powerOn)
        = some s' ∧
      s' = { applyRun true [ZeroCmd.noteOn 0 60]
               { initChannel powerOn with
                 score_start := encodeRun [ZeroCmd.noteOn 0 60] ++ 0xf0 :: [],
                 score_cursor := 0 } with
             score_cursor := (encodeRun [ZeroCmd.noteOn 0 60]).length + 1,
             tune_playing := true } ∧
      playing s' = true) ∧
    (playScore true 2 [0x90, 60, 0xf0] (initChannel powerOn)).map
        (fun u => (playing u, u.playing_chan0, u.sine1_amplitude, u.sine1_frequency,
          u.score_cursor)) =
      some (true, true, Amplitude.ARCADA_MAX_VOLUME, 523, 3) ∧
    (step true 2 { initChannel powerOn with
        score_start := [0x90, 60, 0xf0], tune_playing := true }).map
        (fun u => u.tune_playing) = some false :=
  ⟨playScore_stop_leaves_playing_true true (initChannel powerOn) [ZeroCmd.noteOn 0 60] [] 2
      (by
        intro c hc
        simp only [List.mem_singleton] at hc
        subst hc
        exact ⟨by decide, by decide⟩)
      (by decide),
    by decide, by decide⟩

/-! ## The decode loop along a linear scan -/

/-- One iteration of the decode loop, by the branch the command byte selects. -/
theorem step_succ (oe : Bool) (f : Nat) (s : State) :
    step oe (f + 1) s =
      match pgm_read_byte s.score_start s.score_cursor with
      | none => none
      | some command =>
        match commandKind command with
        | .stopNote =>
          step oe f (stopNote (command &&& 0x0f) { s with score_cursor := s.score_cursor + 1 })
        | .playNote =>
          match pgm_read_byte s.score_start (s.score_cursor + 1) with
          | none => none
          | some note =>
            step oe f (playNote (command &&& 0x0f) note
              { s with score_cursor := s.score_cursor + 2, all_muted := !oe })
        | .wait =>
          match pgm_read_byte s.score_start (s.score_cursor + 1) with
          | none => none
          | some b =>
            some { s with score_cursor := s.score_cursor + 2,
                          duration := toInt32 ((command <<< 8) ||| b) }
        | .restart => step oe f { s with score_cursor := 0 }
        | .stop => some { s with score_cursor := s.score_cursor + 1, tune_playing := false }
        | .other => step oe f { s with score_cursor := s.score_cursor + 1 } := by
  rw [step]
  cases pgm_read_byte s.score_start s.score_cursor with
  | none => rfl
  | some command =>
    simp only [commandKind]
    split_ifs <;> rfl

theorem playNote_score_cursor (chan note : Nat) (s : State) :
    (playNote chan note s).score_cursor = s.score_cursor := by
  unfold playNote updateSpeaker
  dsimp only
  split_ifs <;> rfl

theorem stopNote_score_cursor (chan : Nat) (s : State) :
    (stopNote chan s).score_cursor = s.score_cursor := by
  unfold stopNote updateSpeaker
  dsimp only
  split_ifs <;> rfl

/-- When the linear scan from the cursor ends at a wait or stop within `n`
commands, the decode loop returns, with the same result for every amount of fuel
from `n` on. -/
theorem step_of_scan_halts (oe : Bool) :
    ∀ (n : Nat) (s : State),
      scan s.score_start n s.score_cursor = some ScanResult.halts →
      ∃ s', ∀ f, step oe (n + f) s = some s' := by
  intro n
  induction n with
  | zero =>
    intro s h
    simp [scan] at h
  | succ n ih =>
    intro s h
    have hf : ∀ f, n + 1 + f = (n + f) + 1 := by intro f; omega
    rw [scan] at h
    cases hr : pgm_read_byte s.score_start s.score_cursor with
    | none =>
      simp [hr] at h
    | some command =>
      simp only [hr] at h
      cases hk : commandKind command with
      | stopNote =>
        simp only [hk] at h
        obtain ⟨s', hs'⟩ := ih
          (stopNote (command &&& 0x0f) { s with score_cursor := s.score_cursor + 1 })
          (by rw [stopNote_score_start, stopNote_score_cursor]; exact h)
        exact ⟨s', fun f => by rw [hf, step_succ, hr]; simp only [hk]; exact hs' f⟩
      | playNote =>
        simp only [hk] at h
        cases hr1 : pgm_read_byte s.score_start (s.score_cursor + 1) with
        | none =>
          simp [hr1] at h
        | some note =>
          simp only [hr1] at h
          obtain ⟨s', hs'⟩ := ih
            (playNote (command &&& 0x0f) note
              { s with score_cursor := s.score_cursor + 2, all_muted := !oe })
            (by rw [playNote_score_start, playNote_score_cursor]; exact h)
          exact ⟨s', fun f => by rw [hf, step_succ, hr]; simp only [hk, hr1]; exact hs' f⟩
      | wait =>
        simp only [hk] at h
        cases hr1 : pgm_read_byte s.score_start (s.score_cursor + 1) with
        | none =>
          simp [hr1] at h
        | some b =>
          exact ⟨{ s with score_cursor := s.score_cursor + 2,
                          duration := toInt32 ((command <<< 8) ||| b) },
            fun f => by rw [hf, step_succ, hr]; simp only [hk, hr1]⟩
      | restart =>
        simp [hk] at h
      | stop =>
        exact ⟨{ s with score_cursor := s.score_cursor + 1, tune_playing := false },
          fun f => by rw [hf, step_succ, hr]; simp only [hk]⟩
      | other =>
        simp only [hk] at h
        obtain ⟨s', hs'⟩ := ih { s with score_cursor := s.score_cursor + 1 } h
        exact ⟨s', fun f => by rw [hf, step_succ, hr]; simp only [hk]; exact hs' f⟩

/-- When the linear scan from the cursor ends at a restart within `n` commands,
the decode loop, after some `j` commands with `1 ≤ j ≤ n`, stands at the score
start with the score buffer unchanged; with less fuel than `j` it does not
return. -/
theorem step_of_scan_restarts (oe : Bool) :
    ∀ (n : Nat) (s : State),
      scan s.score_start n s.score_cursor = some ScanResult.restarts →
      ∃ (j : Nat) (s' : State), 1 ≤ j ∧ j ≤ n ∧
        s'.score_start = s.score_start ∧ s'.score_cursor = 0 ∧
        (∀ f, step oe (j + f) s = step oe f s') ∧
        (∀ f, f < j → step oe f s = none) := by
  intro n
  induction n with
  | zero =>
    intro s h
    simp [scan] at h
  | succ n ih =>
    intro s h
    have hf : ∀ j f, j + 1 + f = (j + f) + 1 := by intro j f; omega
    have lift : ∀ t : State, t.score_start = s.score_start →
        (∀ f, step oe (f + 1) s = step oe f t) →
        scan t.score_start n t.score_cursor = some ScanResult.restarts →
        ∃ (j : Nat) (s' : State), 1 ≤ j ∧ j ≤ n + 1 ∧
          s'.score_start = s.score_start ∧ s'.score_cursor = 0 ∧
          (∀ f, step oe (j + f) s = step oe f s') ∧
          (∀ f, f < j → step oe f s = none) := by
      intro t hts hstep ht
      obtain ⟨j, s', hj1, hj2, hs1, hs2, hs3, hs4⟩ := ih t ht
      refine ⟨j + 1, s', by omega, by omega, hs1.trans hts, hs2, ?_, ?_⟩
      · intro f
        rw [hf, hstep]
        exact hs3 f
      · intro f hlt
        cases f with
        | zero => rfl
        | succ f =>
          rw [hstep]
          exact hs4 f (by omega)
    rw [scan] at h
    cases hr : pgm_read_byte s.score_start s.score_cursor with
    | none =>
      simp [hr] at h
    | some command =>
      simp only [hr] at h
      cases hk : commandKind command with
      | stopNote =>
        simp only [hk] at h
        exact lift (stopNote (command &&& 0x0f) { s with score_cursor := s.score_cursor + 1 })
          (by rw [stopNote_score_start])
          (fun f => by rw [step_succ, hr]; simp only [hk])
          (by rw [stopNote_score_start, stopNote_score_cursor]; exact h)
      | playNote =>
        simp only [hk] at h
        cases hr1 : pgm_read_byte s.score_start (s.score_cursor + 1) with
        | none =>
          simp [hr1] at h
        | some note =>
          simp only [hr1] at h
          exact lift (playNote (command &&& 0x0f) note
              { s with score_cursor := s.score_cursor + 2, all_muted := !oe })
            (by rw [playNote_score_start])
            (fun f => by rw [step_succ, hr]; simp only [hk, hr1])
            (by rw [playNote_score_start, playNote_score_cursor]; exact h)
      | wait =>
        simp only [hk] at h
        cases hr1 : pgm_read_byte s.score_start (s.score_cursor + 1) with
        | none =>
          simp [hr1] at h
        | some b =>
          simp [hr1] at h
      | restart =>
        refine ⟨1, { s with score_cursor := 0 }, le_refl 1, by omega, rfl, rfl, ?_, ?_⟩
        · intro f
          rw [Nat.add_comm, step_succ, hr]
          simp only [hk]
        · intro f hlt
          have : f = 0 := by omega
          subst this
          rfl
      | stop =>
        simp [hk] at h
      | other =>
        simp only [hk] at h
        exact lift { s with score_cursor := s.score_cursor + 1 } rfl
          (fun f => by rw [step_succ, hr]; simp only [hk]) h

/-- A restart met by the linear scan from the cursor and again by the linear scan
from the score start: the decode loop never returns, whatever the fuel. -/
theorem step_restart_loop (oe : Bool) (m : Nat) :
    ∀ (fuel : Nat) (s : State) (n : Nat),
      scan s.score_start n s.score_cursor = some ScanResult.restarts →
      scan s.score_start m 0 = some ScanResult.restarts →
      step oe fuel s = none := by
  intro fuel
  induction fuel using Nat.strong_induction_on with
  | _ fuel ih =>
    intro s n hn hm
    obtain ⟨j, s', hj1, _, hs1, hs2, hs3, hs4⟩ := step_of_scan_restarts oe n s hn
    rcases Nat.lt_or_ge fuel j with hlt | hge
    · exact hs4 fuel hlt
    · obtain ⟨f, rfl⟩ : ∃ f, fuel = j + f := ⟨fuel - j, by omega⟩
      rw [hs3 f]
      exact ih f (by omega) s' m (by rw [hs1, hs2]; exact hm) (by rw [hs1]; exact hm)

/-! ## C19: termination of the decode loop -/

/-- C19: for every score buffer and cursor position, if the linear scan from
the cursor meets a wait or stop command within `n` commands, or meets a restart
command within `n` commands while the linear scan from the score start meets a
wait or stop within `m` commands, then the decode loop of `step()` ends: it
returns one and the same state for every amount of fuel from `n + m` on, that
is after at most `n + m` commands.  The hypothesis is needed: when the scan from
the cursor and the scan from the score start both meet a restart before any wait
or stop, `step()` returns for no amount of fuel. -/
theorem step_terminates_unless_restart_loop (oe : Bool) (s : State) (n m : Nat) :
    ((scan s.score_start n s.score_cursor = some ScanResult.halts ∨
        (scan s.score_start n s.score_cursor = some ScanResult.restarts ∧
          scan s.score_start m 0 = some ScanResult.halts)) →
      ∃ s', ∀ fuel, n + m ≤ fuel → step oe fuel s = some s') ∧
    ((scan s.score_start n s.score_cursor = some ScanResult.restarts ∧
        scan s.score_start m 0 = some ScanResult.restarts) →
      ∀ fuel, step oe fuel s = none) := by
  constructor
  · rintro (h | ⟨h1, h2⟩)
    · obtain ⟨s', hs'⟩ := step_of_scan_halts oe n s h
      refine ⟨s', fun fuel hfuel => ?_⟩
      obtain ⟨f, rfl⟩ : ∃ f, fuel = n + f := ⟨fuel - n, by omega⟩
      exact hs' f
    · obtain ⟨j, t, _, hj2, ht1, ht2, ht3, _⟩ := step_of_scan_restarts oe n s h1
      obtain ⟨s', hs'⟩ := step_of_scan_halts oe m t (by rw [ht1, ht2]; exact h2)
      refine ⟨s', fun fuel hfuel => ?_⟩
      obtain ⟨f, rfl⟩ : ∃ f, fuel = j + (m + f) := ⟨fuel - j - m, by omega⟩
      rw [ht3 (m + f)]
      exact hs' f
  · rintro ⟨h1, h2⟩ fuel
    exact step_restart_loop oe m fuel s n h1 h2

/-- C19 at concrete inputs: a looping score note-on, wait 100 ms, restart with
the cursor at the restart (the loop ends at the wait of the next pass), and the
score note-off, restart, on which `step()` never returns. -/
theorem step_terminates_unless_restart_loop_witness :
    (∃ s', ∀ fuel, 1 + 3 ≤ fuel →
      step true fuel { atNoteOn with
          score_start := [0x90, 60, 0, 100, 0xe0], score_cursor := 4 } = some s') ∧
    (∀ fuel, step true fuel { atNoteOn with score_start := [0x80, 0xe0], score_cursor := 0 } =
      none) :=
  ⟨(step_terminates_unless_restart_loop true
      { atNoteOn with score_start := [0x90, 60, 0, 100, 0xe0], score_cursor := 4 } 1 3).1
      (Or.inr ⟨by decide, by decide⟩),
    (step_terminates_unless_restart_loop true
      { atNoteOn with score_start := [0x80, 0xe0], score_cursor := 0 } 2 2).2
      ⟨by decide, by decide⟩⟩

/-! ## Properties kept by the decode loop -/

/-- A property of the state that `stopNote` and `playNote` keep, and that does
not depend on the cursor, `all_muted`, the countdown or `tune_playing`, holds of the
state `step()` returns if it held before the call. -/
theorem step_invariant (oe : Bool) (P : State → Prop)
    (hstop : ∀ c s, P s → P (stopNote c s))
    (hplay : ∀ c n s, P s → P (playNote c n s))
    (hcur : ∀ k s, P s → P { s with score_cursor := k })
    (hmute : ∀ b s, P s → P { s with all_muted := b })
    (hdur : ∀ d s, P s → P { s with duration := d })
    (htp : ∀ b s, P s → P { s with tune_playing := b }) :
    ∀ (fuel : Nat) (s s' : State), P s → step oe fuel s = some s' → P s' := by
  intro fuel
  induction fuel with
  | zero =>
    intro s s' _ h
    simp [step] at h
  | succ fuel ih =>
    intro s s' hP h
    rw [step_succ] at h
    cases hr : pgm_read_byte s.score_start s.score_cursor with
    | none => simp [hr] at h
    | some command =>
      simp only [hr] at h
      cases hk : commandKind command with
      | stopNote =>
        simp only [hk] at h
        exact ih _ s' (hstop _ _ (hcur _ _ hP)) h
      | playNote =>
        simp only [hk] at h
        cases hr1 : pgm_read_byte s.score_start (s.score_cursor + 1) with
        | none => simp [hr1] at h
        | some note =>
          simp only [hr1] at h
          exact ih _ s' (hplay _ _ _ (hmute (!oe) _ (hcur (s.score_cursor + 2) _ hP))) h
      | wait =>
        simp only [hk] at h
        cases hr1 : pgm_read_byte s.score_start (s.score_cursor + 1) with
        | none => simp [hr1] at h
        | some b =>
          simp only [hr1, Option.some.injEq] at h
          rw [← h]
          exact hdur (toInt32 ((command <<< 8) ||| b)) _ (hcur (s.score_cursor + 2) _ hP)
      | restart =>
        simp only [hk] at h
        exact ih _ s' (hcur 0 _ hP) h
      | stop =>
        simp only [hk, Option.some.injEq] at h
        rw [← h]
        exact htp false _ (hcur (s.score_cursor + 1) _ hP)
      | other =>
        simp only [hk] at h
        exact ih _ s' (hcur (s.score_cursor + 1) _ hP) h

/-! ## C11: tone and playScore after closeChannels -/

theorem tone_noop_of_few_chans (oe : Bool) (f d : Nat) (s : State)
    (h : s._tune_num_chans < 2) : tone oe f d s = s := by
  unfold tone
  simp [h]

theorem closedAndSilent_closeChannels (s : State) : closedAndSilent (closeChannels s) := by
  unfold closeChannels
  rw [stopNote_both]
  exact ⟨rfl, rfl, rfl, rfl, rfl, rfl⟩

theorem closedAndSilent_stopNote (c : Nat) (s : State) (h : closedAndSilent s) :
    closedAndSilent (stopNote c s) := by
  obtain ⟨h0, h1, h2, h3, h4, h5⟩ := h
  unfold stopNote updateSpeaker closedAndSilent
  dsimp only
  split_ifs <;> simp_all

theorem closedAndSilent_playNote (c n : Nat) (s : State) (h : closedAndSilent s) :
    closedAndSilent (playNote c n s) := by
  rw [playNote_rejected c n s (Or.inr (by rw [h.1]; exact Nat.zero_le c))]
  exact h

theorem closedAndSilent_step (oe : Bool) (fuel : Nat) (s s' : State)
    (h : closedAndSilent s) (hs : step oe fuel s = some s') : closedAndSilent s' :=
  step_invariant oe closedAndSilent closedAndSilent_stopNote closedAndSilent_playNote
    (fun _ _ h => h) (fun _ _ h => h) (fun _ _ h => h) (fun _ _ h => h) fuel s s' h hs

/-- C11: for every state, after `closeChannels()`: (i) `tone(f, d)`, for any
`f`, `d` and any value of the sound-enabled predicate, returns the state
unchanged, so both channels are still inactive with amplitude 0 and the speaker
is still disabled; (ii) for any score whose first command batch ends in a wait or
stop (the linear scan from the score start meets one within `n` commands),
`playScore(score)` returns, for every amount of fuel from `n` on, a state in
which both channels are still inactive with amplitude 0, the speaker is still
disabled and the channel count is still 0. -/
theorem closeChannels_then_no_activation (oe : Bool) (s : State) (f d : Nat)
    (score : List Nat) (n : Nat) :
    (tone oe f d (closeChannels s) = closeChannels s ∧
      (tone oe f d (closeChannels s)).playing_chan0 = false ∧
      (tone oe f d (closeChannels s)).playing_chan1 = false ∧
      (tone oe f d (closeChannels s)).sine1_amplitude = Amplitude.zero ∧
      (tone oe f d (closeChannels s)).sine2_amplitude = Amplitude.zero ∧
      (tone oe f d (closeChannels s)).speaker = false) ∧
    (scan score n 0 = some ScanResult.halts →
      ∃ s', (∀ fuel, n ≤ fuel → playScore oe fuel score (closeChannels s) = some s') ∧
        s'.playing_chan0 = false ∧ s'.playing_chan1 = false ∧
        s'.sine1_amplitude = Amplitude.zero ∧ s'.sine2_amplitude = Amplitude.zero ∧
        s'.speaker = false ∧ s'._tune_num_chans = 0) := by
  have hc := closedAndSilent_closeChannels s
  constructor
  · have e : tone oe f d (closeChannels s) = closeChannels s :=
      tone_noop_of_few_chans oe f d (closeChannels s) (by rw [hc.1]; decide)
    rw [e]
    exact ⟨rfl, hc.2.1, hc.2.2.1, hc.2.2.2.1, hc.2.2.2.2.1, hc.2.2.2.2.2⟩
  · intro hscan
    obtain ⟨t, ht⟩ := step_of_scan_halts oe n
      { closeChannels s with score_start := score, score_cursor := 0 } hscan
    have hq : closedAndSilent t :=
      closedAndSilent_step oe (n + 0)
        { closeChannels s with score_start := score, score_cursor := 0 } t hc (ht 0)
    refine ⟨{ t with tune_playing := true }, ?_, hq.2.1, hq.2.2.1, hq.2.2.2.1, hq.2.2.2.2.1,
      hq.2.2.2.2.2, hq.1⟩
    intro fuel hfuel
    obtain ⟨k, rfl⟩ : ∃ k, fuel = n + k := ⟨fuel - n, by omega⟩
    unfold playScore
    rw [ht k]
    rfl

/-- C11 at a concrete input: `closeChannels` on the state with a note sounding on
channel 1, then `tone(440, 250)` or `playScore` of note-on (channel 0, note 60),
wait 100 ms, stop. -/
theorem closeChannels_then_no_activation_witness :
    ∃ s', (∀ fuel, 2 ≤ fuel →
        playScore true fuel [0x90, 60, 0, 100, 0xf0] (closeChannels noteOnChannel1) = some s') ∧
      s'.playing_chan0 = false ∧ s'.playing_chan1 = false ∧
      s'.sine1_amplitude = Amplitude.zero ∧ s'.sine2_amplitude = Amplitude.zero ∧
      s'.speaker = false ∧ s'._tune_num_chans = 0 :=
  (closeChannels_then_no_activation true noteOnChannel1 440 250 [0x90, 60, 0, 100, 0xf0] 2).2
    (by decide)

/-! ## C18: the speaker switch and the channel flags -/

theorem speakerMatchesChannels_updateSpeaker (s : State) :
    speakerMatchesChannels (updateSpeaker s) := by
  unfold speakerMatchesChannels updateSpeaker
  cases h0 : s.playing_chan0 <;> cases h1 : s.playing_chan1 <;> simp [h0, h1]

theorem speakerMatchesChannels_stopNote (c : Nat) (s : State) :
    speakerMatchesChannels (stopNote c s) := by
  unfold stopNote
  exact speakerMatchesChannels_updateSpeaker _

theorem speakerMatchesChannels_playNote (c n : Nat) (s : State)
    (h : speakerMatchesChannels s) : speakerMatchesChannels (playNote c n s) := by
  unfold playNote
  split_ifs
  · exact h
  · exact h
  all_goals exact speakerMatchesChannels_updateSpeaker _

theorem speakerMatchesChannels_step (oe : Bool) (fuel : Nat) (s s' : State)
    (h : speakerMatchesChannels s) (hs : step oe fuel s = some s') :
    speakerMatchesChannels s' :=
  step_invariant oe speakerMatchesChannels
    (fun c s _ => speakerMatchesChannels_stopNote c s) speakerMatchesChannels_playNote
    (fun _ _ h => h) (fun _ _ h => h) (fun _ _ h => h) (fun _ _ h => h) fuel s s' h hs

theorem speakerMatchesChannels_stopScore (s : State) (h : speakerMatchesChannels s) :
    speakerMatchesChannels (stopScore s) := by
  have key : ∀ (l : List Nat) (t : State), speakerMatchesChannels t →
      speakerMatchesChannels (l.foldl (fun acc i => stopNote i acc) t) := by
    intro l
    induction l with
    | nil => intro t ht; exact ht
    | cons i l ih => intro t _; exact ih _ (speakerMatchesChannels_stopNote i t)
  exact key _ s h

theorem speakerMatchesChannels_tone (oe : Bool) (f d : Nat) (s : State)
    (h : speakerMatchesChannels s) : speakerMatchesChannels (tone oe f d s) := by
  unfold tone
  split_ifs
  · exact h
  · exact speakerMatchesChannels_updateSpeaker _

theorem speakerMatchesChannels_closeChannels (s : State) :
    speakerMatchesChannels (closeChannels s) :=
  speakerMatchesChannels_stopNote 1 (stopNote 0 s)

theorem speakerMatchesChannels_TimerCallback (oe : Bool) (fuel : Nat) (s s' : State)
    (h : speakerMatchesChannels s) (hs : TimerCallback oe fuel s = some s') :
    speakerMatchesChannels s' := by
  rcases lt_trichotomy s.duration 1 with hlt | heq | hgt
  · rw [TimerCallback_idle oe fuel s (by omega), Option.some.injEq] at hs
    rw [← hs]
    exact h
  · rw [TimerCallback_expire oe fuel s heq] at hs
    split_ifs at hs
    · exact speakerMatchesChannels_step oe fuel (silenceAll { s with duration := 0 }) s' rfl hs
    · rw [Option.some.injEq] at hs
      rw [← hs]
      rfl
    · exact speakerMatchesChannels_step oe fuel { s with duration := 0 } s' h hs
    · rw [Option.some.injEq] at hs
      rw [← hs]
      exact h
  · rw [TimerCallback_decrement oe fuel s hgt, Option.some.injEq] at hs
    rw [← hs]
    exact h

theorem speakerMatchesChannels_run (c : Call) (s s' : State)
    (h : speakerMatchesChannels s) (hrun : c.run s = some s')
    (hinit : c = Call.initChannel → s.playing_chan0 = false ∧ s.playing_chan1 = false) :
    speakerMatchesChannels s' := by
  cases c with
  | initChannel =>
    obtain ⟨h0, h1⟩ := hinit rfl
    simp only [Call.run, Option.some.injEq] at hrun
    rw [← hrun]
    show false = (s.playing_chan0 || s.playing_chan1)
    rw [h0, h1]
    rfl
  | playNote chan note =>
    simp only [Call.run, Option.some.injEq] at hrun
    rw [← hrun]
    exact speakerMatchesChannels_playNote chan note s h
  | stopNote chan =>
    simp only [Call.run, Option.some.injEq] at hrun
    rw [← hrun]
    exact speakerMatchesChannels_stopNote chan s
  | playScore oe fuel score =>
    simp only [Call.run, playScore, Option.map_eq_some'] at hrun
    obtain ⟨t, ht, rfl⟩ := hrun
    exact speakerMatchesChannels_step oe fuel
      { s with score_start := score, score_cursor := 0 } t h ht
  | stopScore =>
    simp only [Call.run, Option.some.injEq] at hrun
    rw [← hrun]
    exact speakerMatchesChannels_stopScore s h
  | tone oe f d =>
    simp only [Call.run, Option.some.injEq] at hrun
    rw [← hrun]
    exact speakerMatchesChannels_tone oe f d s h
  | closeChannels =>
    simp only [Call.run, Option.some.injEq] at hrun
    rw [← hrun]
    exact speakerMatchesChannels_closeChannels s
  | TimerCallback oe fuel =>
    exact speakerMatchesChannels_TimerCallback oe fuel s s' h hrun

theorem speakerMatchesChannels_runCalls (calls : List Call) :
    ∀ (s s' : State), speakerMatchesChannels s → runCalls calls s = some s' →
      initOnlyWhenSilent calls s = true → speakerMatchesChannels s' := by
  induction calls with
  | nil =>
    intro s s' h hrun _
    simp only [runCalls, Option.some.injEq] at hrun
    rw [← hrun]
    exact h
  | cons c cs ih =>
    intro s s' h hrun hinit
    simp only [runCalls] at hrun
    cases hc : c.run s with
    | none => simp [hc] at hrun
    | some t =>
      simp only [hc, Option.some_bind] at hrun
      simp only [initOnlyWhenSilent, hc, Bool.and_eq_true] at hinit
      refine ih t s' (speakerMatchesChannels_run c s t h hc ?_) hrun hinit.2
      intro hci
      subst hci
      simpa using hinit.1

/-- C18 (counterexample): from the power-on state the calls `initChannel`,
`playNote(0, 60)`, `initChannel` lead to a state in which the speaker is
disabled while `playing_chan0` is true. -/
theorem initChannel_while_playing_disables_speaker :
    (runCalls [Call.initChannel, Call.playNote 0 60, Call.initChannel] powerOn).map
        (fun s => (s.speaker, s.playing_chan0, s.playing_chan1)) =
      some (false, true, false) := by
  decide

/-- C18 (amended): in every state reached from the power-on state by a sequence
of `initChannel`, `playNote`, `stopNote`, `playScore`, `stopScore`, `tone`,
`closeChannels` and `TimerCallback` calls in which every `initChannel` is made
while no channel is active (as at power-on or right after `closeChannels`), the
speaker is enabled if and only if `playing_chan0` or `playing_chan1` is true. -/
theorem speaker_matches_channels_when_init_silent (calls : List Call) (s : State)
    (hrun : runCalls calls powerOn = some s)
    (hinit : initOnlyWhenSilent calls powerOn = true) :
    s.speaker = true ↔ (s.playing_chan0 = true ∨ s.playing_chan1 = true) := by
  have h := speakerMatchesChannels_runCalls calls powerOn s rfl hrun hinit
  unfold speakerMatchesChannels at h
  rw [h, Bool.or_eq_true]

/-- C18 (amended) at a concrete sequence: `initChannel`, `playNote(0, 60)`,
`tone(440, 1)`, one tick, `closeChannels`, `initChannel`, `playNote(1, 64)`. -/
theorem speaker_matches_channels_when_init_silent_witness :
    (playNote 1 64 (initChannel (closeChannels (silenceAll
        { tone true 440 1 (playNote 0 60 (initChannel powerOn)) with duration := 0 })))).speaker
      = true ↔
    ((playNote 1 64 (initChannel (closeChannels (silenceAll
        { tone true 440 1 (playNote 0 60 (initChannel powerOn)) with duration := 0 })))).playing_chan0
      = true ∨
     (playNote 1 64 (initChannel (closeChannels (silenceAll
        { tone true 440 1 (playNote 0 60 (initChannel powerOn)) with duration := 0 })))).playing_chan1
      = true) :=
  speaker_matches_channels_when_init_silent
    [Call.initChannel, Call.playNote 0 60, Call.tone true 440 1, Call.TimerCallback true 1,
      Call.closeChannels, Call.initChannel, Call.playNote 1 64]
    (playNote 1 64 (initChannel (closeChannels (silenceAll
        { tone true 440 1 (playNote 0 60 (initChannel powerOn)) with duration := 0 }))))
    (by decide) (by decide)

/-! ## The recorded machine: agreement with the plain one -/

theorem stepLog_fst (oe : Bool) :
    ∀ (fuel : Nat) (s : State) (log : List Write),
      (stepLog oe fuel s log).map Prod.fst = step oe fuel s := by
  intro fuel
  induction fuel with
  | zero => intro s log; rfl
  | succ fuel ih =>
    intro s log
    rw [stepLog, step]
    cases pgm_read_byte s.score_start s.score_cursor with
    | none => rfl
    | some command =>
      dsimp only
      split_ifs
      · exact ih _ _
      · cases pgm_read_byte s.score_start (s.score_cursor + 1) with
        | none => rfl
        | some note => exact ih _ _
      · cases pgm_read_byte s.score_start (s.score_cursor + 1) with
        | none => rfl
        | some b => rfl
      · exact ih _ _
      · rfl
      · exact ih _ _

theorem playScoreLog_fst (oe : Bool) (fuel : Nat) (score : List Nat) (s : State)
    (log : List Write) :
    (playScoreLog oe fuel score s log).map Prod.fst = playScore oe fuel score s := by
  unfold playScoreLog playScore
  rw [← stepLog_fst oe fuel _ log]
  cases stepLog oe fuel { s with score_start := score, score_cursor := 0 } log <;> rfl

theorem TimerCallbackLog_fst (oe : Bool) (fuel : Nat) (s : State) (log : List Write) :
    (TimerCallbackLog oe fuel s log).map Prod.fst = TimerCallback oe fuel s := by
  unfold TimerCallbackLog TimerCallback
  dsimp only
  split_ifs <;> first | rfl | exact stepLog_fst oe fuel _ _

theorem ticksLog_fst (oe : Bool) (fuel : Nat) :
    ∀ (n : Nat) (s : State) (log : List Write),
      (ticksLog oe fuel n s log).map Prod.fst = ticks oe fuel n s := by
  intro n
  induction n with
  | zero => intro s log; rfl
  | succ n ih =>
    intro s log
    rw [ticksLog, ticks, ← TimerCallbackLog_fst oe fuel s log]
    cases TimerCallbackLog oe fuel s log with
    | none => rfl
    | some r => exact ih r.1 r.2

/-! ## The recorded decode loop on runs, waits and restarts -/

theorem stepLog_stopnote (oe : Bool) (fuel : Nat) (s : State) (log : List Write) (command : Nat)
    (hr : pgm_read_byte s.score_start s.score_cursor = some command)
    (hop : command &&& 0xf0 = 0x80) :
    stepLog oe (fuel + 1) s log =
      stepLog oe fuel (stopNote (command &&& 0x0f) { s with score_cursor := s.score_cursor + 1 })
        (log ++ stopNoteWrites (command &&& 0x0f)) := by
  rw [stepLog]
  simp only [hr, hop, TUNE_OP_STOPNOTE, if_true]

theorem stepLog_playnote (oe : Bool) (fuel : Nat) (s : State) (log : List Write)
    (command note : Nat)
    (hr : pgm_read_byte s.score_start s.score_cursor = some command)
    (hop : command &&& 0xf0 = 0x90)
    (hn : pgm_read_byte s.score_start (s.score_cursor + 1) = some note) :
    stepLog oe (fuel + 1) s log =
      stepLog oe fuel (playNote (command &&& 0x0f) note
        { s with score_cursor := s.score_cursor + 2, all_muted := !oe })
        (log ++ playNoteWrites s._tune_num_chans (command &&& 0x0f) note) := by
  rw [stepLog]
  simp only [hr, hop, hn, TUNE_OP_STOPNOTE, TUNE_OP_PLAYNOTE, if_true]
  rfl

theorem stepLog_wait (oe : Bool) (fuel : Nat) (s : State) (log : List Write) (command b : Nat)
    (hr : pgm_read_byte s.score_start s.score_cursor = some command)
    (hop : command &&& 0xf0 < 0x80)
    (hn : pgm_read_byte s.score_start (s.score_cursor + 1) = some b) :
    stepLog oe (fuel + 1) s log =
      some ({ s with score_cursor := s.score_cursor + 2,
                     duration := toInt32 ((command <<< 8) ||| b) },
            log ++ [Write.countdown (toInt32 ((command <<< 8) ||| b))]) := by
  have h1 : command &&& 0xf0 ≠ 0x80 := by omega
  have h2 : command &&& 0xf0 ≠ 0x90 := by omega
  rw [stepLog]
  simp only [hr, hn, TUNE_OP_STOPNOTE, TUNE_OP_PLAYNOTE, if_neg h1, if_neg h2, if_pos hop]

theorem stepLog_restart (oe : Bool) (fuel : Nat) (s : State) (log : List Write) (command : Nat)
    (hr : pgm_read_byte s.score_start s.score_cursor = some command)
    (hop : command &&& 0xf0 = 0xe0) :
    stepLog oe (fuel + 1) s log =
      stepLog oe fuel { s with score_cursor := 0 } (log ++ [Write.cursorReset]) := by
  rw [stepLog]
  simp only [hr, hop, TUNE_OP_STOPNOTE, TUNE_OP_PLAYNOTE, TUNE_OP_RESTART]
  rfl

theorem playNote_tune_num_chans (chan note : Nat) (s : State) :
    (playNote chan note s)._tune_num_chans = s._tune_num_chans := by
  unfold playNote updateSpeaker
  dsimp only
  split_ifs <;> rfl

theorem stopNote_tune_num_chans (chan : Nat) (s : State) :
    (stopNote chan s)._tune_num_chans = s._tune_num_chans := by
  unfold stopNote updateSpeaker
  dsimp only
  split_ifs <;> rfl

theorem ZeroCmd.apply_tune_num_chans (oe : Bool) (c : ZeroCmd) (s : State) :
    (c.apply oe s)._tune_num_chans = s._tune_num_chans := by
  cases c with
  | noteOn chan note => exact playNote_tune_num_chans chan note _
  | noteOff chan => exact stopNote_tune_num_chans chan s

/-- The recorded decode loop on a run of zero-duration commands followed by
anything: the run is applied in order and its writes are appended in order. -/
theorem stepLog_prefix (oe : Bool) (tail : List Nat) (run : List ZeroCmd) :
    (∀ c ∈ run, c.valid) →
    ∀ (pre : List Nat) (s : State) (log : List Write) (f : Nat),
      s.score_start = pre ++ (encodeRun run ++ tail) →
      s.score_cursor = pre.length →
      stepLog oe (run.length + f) s log =
        stepLog oe f
          { applyRun oe run s with score_cursor := pre.length + (encodeRun run).length }
          (log ++ runWrites s._tune_num_chans run) := by
  induction run with
  | nil =>
    intro _ pre s log f _ hc
    have e : ({ applyRun oe [] s with
        score_cursor := pre.length + (encodeRun []).length } : State) = s :=
      state_cursor_eta s _ (by simpa [encodeRun] using hc)
    rw [e]
    simp [runWrites]
  | cons c run ih =>
    intro hv pre s log f hs hc
    have hvc : c.valid := hv c (List.mem_cons_self _ _)
    have hvr : ∀ d ∈ run, d.valid := fun d hd => hv d (List.mem_cons_of_mem _ hd)
    have hfuel : (c :: run).length + f = (run.length + f) + 1 := by
      simp only [List.length_cons]
      omega
    have hw : ∀ w : List Write, log ++ w ++ runWrites s._tune_num_chans run =
        log ++ (w ++ runWrites s._tune_num_chans run) := fun w => List.append_assoc _ _ _
    rw [hfuel]
    cases c with
    | noteOn chan note =>
      obtain ⟨hchan, hnote⟩ := hvc
      have hs1 : s.score_start =
          pre ++ (0x90 + chan) :: note :: (encodeRun run ++ tail) := by
        simpa [encodeRun, ZeroCmd.encode] using hs
      have hr0 : pgm_read_byte s.score_start s.score_cursor = some ((0x90 + chan) % 256) := by
        rw [hs1, hc]; exact pgm_read_byte_at pre _ _
      have hr1 : pgm_read_byte s.score_start (s.score_cursor + 1) = some note := by
        rw [hs1, hc, pgm_read_byte_at_succ pre _ note _, Nat.mod_eq_of_lt (by omega)]
      rw [stepLog_playnote oe _ s log _ _ hr0 (nibbles_noteOn chan hchan).1 hr1,
        (nibbles_noteOn chan hchan).2]
      have e1 : playNote chan note { s with score_cursor := s.score_cursor + 2, all_muted := !oe } =
          { (ZeroCmd.noteOn chan note).apply oe s with score_cursor := s.score_cursor + 2 } :=
        playNote_cursor chan note (s.score_cursor + 2) { s with all_muted := !oe }
      have key := ih hvr (pre ++ [0x90 + chan, note])
        ({ (ZeroCmd.noteOn chan note).apply oe s with score_cursor := s.score_cursor + 2 })
        (log ++ playNoteWrites s._tune_num_chans chan note) f
        (by
          show ((ZeroCmd.noteOn chan note).apply oe s).score_start = _
          rw [ZeroCmd.apply_score_start]
          simpa using hs1)
        (by
          show s.score_cursor + 2 = _
          simp [hc])
      have hch : ({ (ZeroCmd.noteOn chan note).apply oe s with
          score_cursor := s.score_cursor + 2 } : State)._tune_num_chans = s._tune_num_chans :=
        ZeroCmd.apply_tune_num_chans oe (ZeroCmd.noteOn chan note) s
      rw [e1, key, applyRun_cursor, hch, hw]
      have e2 : (pre ++ [0x90 + chan, note]).length + (encodeRun run).length =
          pre.length + (encodeRun (ZeroCmd.noteOn chan note :: run)).length := by
        simp [encodeRun, ZeroCmd.encode]
        omega
      rw [e2]
      rfl
    | noteOff chan =>
      have hchan : chan < 16 := hvc
      have hs1 : s.score_start =
          pre ++ (0x80 + chan) :: (encodeRun run ++ tail) := by
        simpa [encodeRun, ZeroCmd.encode] using hs
      have hr0 : pgm_read_byte s.score_start s.score_cursor = some ((0x80 + chan) % 256) := by
        rw [hs1, hc]; exact pgm_read_byte_at pre _ _
      rw [stepLog_stopnote oe _ s log _ hr0 (nibbles_noteOff chan hchan).1,
        (nibbles_noteOff chan hchan).2]
      have e1 : stopNote chan { s with score_cursor := s.score_cursor + 1 } =
          { (ZeroCmd.noteOff chan).apply oe s with score_cursor := s.score_cursor + 1 } :=
        stopNote_cursor chan (s.score_cursor + 1) s
      have key := ih hvr (pre ++ [0x80 + chan])
        ({ (ZeroCmd.noteOff chan).apply oe s with score_cursor := s.score_cursor + 1 })
        (log ++ stopNoteWrites chan) f
        (by
          show ((ZeroCmd.noteOff chan).apply oe s).score_start = _
          rw [ZeroCmd.apply_score_start]
          simpa using hs1)
        (by
          show s.score_cursor + 1 = _
          simp [hc])
      have hch : ({ (ZeroCmd.noteOff chan).apply oe s with
          score_cursor := s.score_cursor + 1 } : State)._tune_num_chans = s._tune_num_chans :=
        ZeroCmd.apply_tune_num_chans oe (ZeroCmd.noteOff chan) s
      rw [e1, key, applyRun_cursor, hch, hw]
      have e2 : (pre ++ [0x80 + chan]).length + (encodeRun run).length =
          pre.length + (encodeRun (ZeroCmd.noteOff chan :: run)).length := by
        simp [encodeRun, ZeroCmd.encode]
        omega
      rw [e2]
      rfl

theorem playNote_tune_playing (chan note : Nat) (s : State) :
    (playNote chan note s).tune_playing = s.tune_playing := by
  unfold playNote updateSpeaker
  dsimp only
  split_ifs <;> rfl

theorem stopNote_tune_playing_eq (chan : Nat) (s : State) :
    (stopNote chan s).tune_playing = s.tune_playing := by
  unfold stopNote updateSpeaker
  dsimp only
  split_ifs <;> rfl

theorem playNote_tone_playing (chan note : Nat) (s : State) :
    (playNote chan note s).tone_playing = s.tone_playing := by
  unfold playNote updateSpeaker
  dsimp only
  split_ifs <;> rfl

theorem stopNote_tone_playing (chan : Nat) (s : State) :
    (stopNote chan s).tone_playing = s.tone_playing := by
  unfold stopNote updateSpeaker
  dsimp only
  split_ifs <;> rfl

/-- A component of the state that `playNote`, `stopNote` and the write of
`all_muted` leave alone is left alone by a run of zero-duration commands. -/
theorem applyRun_keeps {α : Type} (g : State → α)
    (hp : ∀ c n s, g (playNote c n s) = g s) (hs : ∀ c s, g (stopNote c s) = g s)
    (hm : ∀ b s, g { s with all_muted := b } = g s) (oe : Bool) (run : List ZeroCmd) :
    ∀ s : State, g (applyRun oe run s) = g s := by
  induction run with
  | nil => intro s; rfl
  | cons c run ih =>
    intro s
    show g (applyRun oe run (c.apply oe s)) = _
    rw [ih]
    cases c with
    | noteOn chan note =>
      show g (playNote chan note { s with all_muted := !oe }) = _
      rw [hp, hm]
    | noteOff chan => exact hs chan s

/-- A call of the recorded `step()` at the start of a phrase: it returns just
past the wait of the phrase, with the countdown seeded and the writes of the
phrase appended. -/
theorem stepLog_phrase (oe : Bool) (p : Phrase) (hp : p.valid) (tail pre : List Nat)
    (s : State) (log : List Write) (fuel : Nat)
    (hs : s.score_start = pre ++ (p.encode ++ tail)) (hc : s.score_cursor = pre.length)
    (hf : p.run.length + 1 ≤ fuel) :
    ∃ s', stepLog oe fuel s log = some (s', log ++ p.writes s._tune_num_chans) ∧
      s'.score_start = s.score_start ∧ s'.score_cursor = pre.length + p.encode.length ∧
      s'.duration = ((p.ms : Nat) : Int) ∧ s'.tune_playing = s.tune_playing ∧
      s'.tone_playing = s.tone_playing ∧ s'._tune_num_chans = s._tune_num_chans := by
  obtain ⟨hv, hhi, hlo, _⟩ := hp
  obtain ⟨f, rfl⟩ : ∃ f, fuel = p.run.length + (f + 1) := ⟨fuel - p.run.length - 1, by omega⟩
  have hs1 : s.score_start = pre ++ (encodeRun p.run ++ p.hi :: p.lo :: tail) := by
    rw [hs]
    simp [Phrase.encode]
  have h1 := stepLog_prefix oe (p.hi :: p.lo :: tail) p.run hv pre s log (f + 1) hs1 hc
  have hst : (applyRun oe p.run s).score_start =
      (pre ++ encodeRun p.run) ++ p.hi :: p.lo :: tail := by
    rw [applyRun_score_start, hs1, List.append_assoc]
  have hr0 : pgm_read_byte
      ({ applyRun oe p.run s with
          score_cursor := pre.length + (encodeRun p.run).length } : State).score_start
      ({ applyRun oe p.run s with
          score_cursor := pre.length + (encodeRun p.run).length } : State).score_cursor
      = some (p.hi % 256) := by
    show pgm_read_byte (applyRun oe p.run s).score_start
      (pre.length + (encodeRun p.run).length) = _
    rw [hst, ← List.length_append]
    exact pgm_read_byte_at _ _ _
  have hr1 : pgm_read_byte
      ({ applyRun oe p.run s with
          score_cursor := pre.length + (encodeRun p.run).length } : State).score_start
      (({ applyRun oe p.run s with
          score_cursor := pre.length + (encodeRun p.run).length } : State).score_cursor + 1)
      = some (p.lo % 256) := by
    show pgm_read_byte (applyRun oe p.run s).score_start
      (pre.length + (encodeRun p.run).length + 1) = _
    rw [hst, ← List.length_append]
    exact pgm_read_byte_at_succ _ _ _ _
  have h2 := stepLog_wait oe f _ (log ++ runWrites s._tune_num_chans p.run) _ _ hr0
    (opcode_wait p.hi hhi) hr1
  have hval : toInt32 (((p.hi % 256) <<< 8) ||| (p.lo % 256)) = ((p.ms : Nat) : Int) := by
    rw [wait_value p.hi p.lo hhi hlo]
    unfold Phrase.ms
    push_cast
    rfl
  rw [hval] at h2
  refine ⟨{ applyRun oe p.run s with
              score_cursor := pre.length + (encodeRun p.run).length + 2,
              duration := ((p.ms : Nat) : Int) }, ?_, ?_, ?_, rfl, ?_, ?_, ?_⟩
  · rw [h1, h2]
    have hl : log ++ runWrites s._tune_num_chans p.run ++ [Write.countdown ((p.ms : Nat) : Int)] =
        log ++ p.writes s._tune_num_chans := by
      simp [Phrase.writes]
    rw [hl]
  · exact applyRun_score_start oe p.run s
  · show pre.length + (encodeRun p.run).length + 2 = pre.length + p.encode.length
    simp [Phrase.encode]
    omega
  · exact applyRun_keeps (fun t => t.tune_playing) playNote_tune_playing
      stopNote_tune_playing_eq (fun _ _ => rfl) oe p.run s
  · exact applyRun_keeps (fun t => t.tone_playing) playNote_tone_playing
      stopNote_tone_playing (fun _ _ => rfl) oe p.run s
  · exact applyRun_keeps (fun t => t._tune_num_chans) playNote_tune_num_chans
      stopNote_tune_num_chans (fun _ _ => rfl) oe p.run s

/-! ## The recorded ticks of a running score -/

theorem TimerCallbackLog_decrement (oe : Bool) (fuel : Nat) (s : State) (log : List Write)
    (h : 1 < s.duration) :
    TimerCallbackLog oe fuel s log = some ({ s with duration := s.duration - 1 }, log) := by
  unfold TimerCallbackLog
  have h1 : s.duration > 0 := by omega
  have h2 : ¬ (s.duration - 1 = 0) := by omega
  simp only [h1, h2, if_true, if_false]

theorem TimerCallbackLog_expire_score (oe : Bool) (fuel : Nat) (s : State) (log : List Write)
    (h : s.duration = 1) (hrun : s.tune_playing = true) :
    TimerCallbackLog oe fuel s log =
      stepLog oe fuel (expired s) (log ++ toneStopWrites s.tone_playing) := by
  unfold TimerCallbackLog expired toneStopWrites
  have h1 : s.duration > 0 := by omega
  have h2 : s.duration - 1 = 0 := by omega
  cases htp : s.tone_playing <;> simp [h1, h2, htp, hrun, silenceAll]

theorem ticksLog_add (oe : Bool) (fuel : Nat) (a b : Nat) :
    ∀ (s : State) (log : List Write),
      ticksLog oe fuel (a + b) s log =
        (ticksLog oe fuel a s log).bind (fun r => ticksLog oe fuel b r.1 r.2) := by
  induction a with
  | zero => intro s log; simp [ticksLog]
  | succ a ih =>
    intro s log
    rw [Nat.add_right_comm]
    simp only [ticksLog]
    cases h : TimerCallbackLog oe fuel s log with
    | none => rfl
    | some r => simpa using ih r.1 r.2

theorem ticksLog_countdown (oe : Bool) (fuel : Nat) (k : Nat) :
    ∀ (s : State) (log : List Write), (k : Int) < s.duration →
      ticksLog oe fuel k s log = some ({ s with duration := s.duration - (k : Int) }, log) := by
  induction k with
  | zero => intro s log _; simp [ticksLog]
  | succ k ih =>
    intro s log h
    have h1 : 1 < s.duration := by push_cast at h; omega
    simp only [ticksLog, TimerCallbackLog_decrement oe fuel s log h1, Option.some_bind]
    rw [ih _ log (by show (k : Int) < s.duration - 1; push_cast at h; omega)]
    simp only [Option.some.injEq, Prod.mk.injEq, and_true]
    show ({ s with duration := s.duration - 1 - (k : Int) } : State) = _
    congr 1
    push_cast
    omega

theorem expired_score_start (s : State) : (expired s).score_start = s.score_start := by
  unfold expired
  split_ifs <;> rfl

theorem expired_score_cursor (s : State) : (expired s).score_cursor = s.score_cursor := by
  unfold expired
  split_ifs <;> rfl

theorem expired_tune_playing (s : State) : (expired s).tune_playing = s.tune_playing := by
  unfold expired
  split_ifs <;> rfl

theorem expired_tone_playing (s : State) : (expired s).tone_playing = s.tone_playing := by
  unfold expired
  split_ifs <;> rfl

theorem expired_tune_num_chans (s : State) :
    (expired s)._tune_num_chans = s._tune_num_chans := by
  unfold expired
  split_ifs <;> rfl

theorem expired_of_duration (s : State) (d : Int) :
    expired { s with duration := d } = expired s := by
  unfold expired
  rfl

/-- In a running score, the `d` ticks of a wait of `d ≥ 1` ms amount to one
recorded call of `step()` on the expired state, after the writes of the tone-stop
block if `tone_playing` is set. -/
theorem ticksLog_wait (oe : Bool) (fuel : Nat) (s : State) (log : List Write) (d : Nat)
    (hd1 : 1 ≤ d) (hdur : s.duration = (d : Int)) (hrun : s.tune_playing = true) :
    ticksLog oe fuel d s log =
      stepLog oe fuel (expired s) (log ++ toneStopWrites s.tone_playing) := by
  obtain ⟨m, rfl⟩ : ∃ m, d = m + 1 := ⟨d - 1, by omega⟩
  rw [ticksLog_add, ticksLog_countdown oe fuel m s log (by rw [hdur]; push_cast; omega), hdur,
    Option.some_bind]
  have e : ({ s with duration := ((m + 1 : Nat) : Int) - (m : Int) } : State) =
      { s with duration := 1 } := by
    congr 1
    push_cast
    omega
  simp only [e, ticksLog]
  rw [TimerCallbackLog_expire_score oe fuel { s with duration := 1 } log rfl hrun,
    expired_of_duration]
  show (stepLog oe fuel (expired s) (log ++ toneStopWrites s.tone_playing)).bind _ = _
  cases stepLog oe fuel (expired s) (log ++ toneStopWrites s.tone_playing) <;> rfl

/-- From a pending wait of `d ≥ 1` ms in front of the phrases `ps`: after
`d` ticks plus the durations of all the phrases, the tick that ends the last wait
calls the recorded `step()` just past the phrases, with the writes of the phrases
appended in order, each expiry adding the writes of the tone-stop block when
`tone_playing` is set. -/
theorem ticksLog_phrases (oe : Bool) (fuel : Nat) (tail : List Nat) (ps : List Phrase) :
    (∀ p ∈ ps, p.valid) → (∀ p ∈ ps, p.run.length + 1 ≤ fuel) →
    ∀ (pre : List Nat) (s : State) (log : List Write) (d : Nat),
      s.score_start = pre ++ ((ps.map Phrase.encode).flatten ++ tail) →
      s.score_cursor = pre.length → 1 ≤ d → s.duration = (d : Int) →
      s.tune_playing = true →
      ∃ s', ticksLog oe fuel (d + (ps.map Phrase.ms).sum) s log =
          stepLog oe fuel s'
            (log ++ ((ps.map (fun p => toneStopWrites s.tone_playing ++
                p.writes s._tune_num_chans)).flatten ++ toneStopWrites s.tone_playing)) ∧
        s'.score_start = s.score_start ∧
        s'.score_cursor = pre.length + ((ps.map Phrase.encode).flatten).length ∧
        s'.tone_playing = s.tone_playing ∧ s'.tune_playing = true ∧
        s'._tune_num_chans = s._tune_num_chans := by
  induction ps with
  | nil =>
    intro _ _ pre s log d _ hc hd1 hdur hrun
    refine ⟨expired s, ?_, expired_score_start s, ?_, expired_tone_playing s,
      (expired_tune_playing s).trans hrun, expired_tune_num_chans s⟩
    · simp only [List.map_nil, List.sum_nil, Nat.add_zero, List.flatten_nil, List.nil_append]
      exact ticksLog_wait oe fuel s log d hd1 hdur hrun
    · rw [expired_score_cursor]
      simpa using hc
  | cons p ps ih =>
    intro hv hf pre s log d hs hc hd1 hdur hrun
    have hvp : p.valid := hv p (List.mem_cons_self _ _)
    have hvr : ∀ q ∈ ps, q.valid := fun q hq => hv q (List.mem_cons_of_mem _ hq)
    have hfp : p.run.length + 1 ≤ fuel := hf p (List.mem_cons_self _ _)
    have hfr : ∀ q ∈ ps, q.run.length + 1 ≤ fuel := fun q hq => hf q (List.mem_cons_of_mem _ hq)
    have hs1 : (expired s).score_start =
        pre ++ (p.encode ++ ((ps.map Phrase.encode).flatten ++ tail)) := by
      rw [expired_score_start, hs]
      simp
    obtain ⟨s1, h1, h1s, h1c, h1d, h1r, h1t, h1n⟩ :=
      stepLog_phrase oe p hvp ((ps.map Phrase.encode).flatten ++ tail) pre
        (expired s) (log ++ toneStopWrites s.tone_playing) fuel hs1
        ((expired_score_cursor s).trans hc) hfp
    have h1t' : s1.tone_playing = s.tone_playing := h1t.trans (expired_tone_playing s)
    have h1n' : s1._tune_num_chans = s._tune_num_chans :=
      h1n.trans (expired_tune_num_chans s)
    obtain ⟨s', h2, h2s, h2c, h2t, h2r, h2n⟩ :=
      ih hvr hfr (pre ++ p.encode) s1
        (log ++ toneStopWrites s.tone_playing ++ p.writes (expired s)._tune_num_chans) p.ms
        (by rw [h1s, hs1, List.append_assoc])
        (by rw [h1c, List.length_append])
        hvp.2.2.2 h1d (h1r.trans ((expired_tune_playing s).trans hrun))
    refine ⟨s', ?_, (h2s.trans h1s).trans (expired_score_start s), ?_, h2t.trans h1t', h2r,
      h2n.trans h1n'⟩
    · have hsum : d + ((p :: ps).map Phrase.ms).sum = d + (p.ms + (ps.map Phrase.ms).sum) := by
        simp
      rw [hsum, ticksLog_add, ticksLog_wait oe fuel s log d hd1 hdur hrun, h1,
        Option.some_bind, h2, h1t', h1n', expired_tune_num_chans]
      simp
    · rw [h2c]
      simp
      omega

/-- One period of a looping score: from the wait of the first phrase, after as
many ticks as the pass lasts the score is again in the wait of the first phrase,
and the writes of the rest of the pass, the cursor reset and the writes of the
first phrase have been appended. -/
theorem ticksLog_period (oe : Bool) (fuel : Nat) (L : LoopScore) (rest : List Nat)
    (chans : Nat) (tp : Bool) (hL : L.valid) (hfuel : L.fuelOk fuel) (s : State)
    (log : List Write) (hP : L.waitingAfterFirst rest chans tp s) :
    ∃ s', ticksLog oe fuel L.period s log =
        some (s', log ++ (L.restWrites chans tp ++ L.first.writes chans)) ∧
      L.waitingAfterFirst rest chans tp s' := by
  obtain ⟨hs, hc, hd, htone, hrun, hn⟩ := hP
  obtain ⟨hv1, hvm, hvt⟩ := hL
  obtain ⟨hfm, hft⟩ := hfuel
  have hs0 : s.score_start = L.first.encode ++
      ((L.more.map Phrase.encode).flatten ++ ((encodeRun L.trailing ++ [0xe0]) ++ rest)) := by
    rw [hs]
    simp [LoopScore.encode]
  obtain ⟨s1, h1, h1s, h1c, h1t, h1r, h1n⟩ :=
    ticksLog_phrases oe fuel ((encodeRun L.trailing ++ [0xe0]) ++ rest) L.more hvm hfm
      L.first.encode s log L.first.ms hs0 hc hv1.2.2.2 hd hrun
  rw [htone, hn] at h1
  obtain ⟨f, rfl⟩ : ∃ f, fuel = L.trailing.length + (f + 1) :=
    ⟨fuel - L.trailing.length - 1, by omega⟩
  have hf1 : L.first.run.length + 1 ≤ f := by omega
  have hs1 : s1.score_start =
      (L.first.encode ++ (L.more.map Phrase.encode).flatten) ++
        (encodeRun L.trailing ++ 0xe0 :: rest) := by
    rw [h1s, hs0]
    simp
  have h2 := stepLog_prefix oe (0xe0 :: rest) L.trailing hvt
    (L.first.encode ++ (L.more.map Phrase.encode).flatten) s1
    (log ++ ((L.more.map (fun p => toneStopWrites tp ++ p.writes chans)).flatten ++
      toneStopWrites tp)) (f + 1) hs1
    (by rw [h1c, List.length_append])
  have hst : (applyRun oe L.trailing s1).score_start =
      ((L.first.encode ++ (L.more.map Phrase.encode).flatten) ++ encodeRun L.trailing) ++
        0xe0 :: rest := by
    rw [applyRun_score_start, hs1]
    simp only [List.append_assoc]
  have hr : pgm_read_byte
      ({ applyRun oe L.trailing s1 with
          score_cursor := (L.first.encode ++ (L.more.map Phrase.encode).flatten).length +
            (encodeRun L.trailing).length } : State).score_start
      ({ applyRun oe L.trailing s1 with
          score_cursor := (L.first.encode ++ (L.more.map Phrase.encode).flatten).length +
            (encodeRun L.trailing).length } : State).score_cursor = some 0xe0 := by
    show pgm_read_byte (applyRun oe L.trailing s1).score_start
      ((L.first.encode ++ (L.more.map Phrase.encode).flatten).length +
        (encodeRun L.trailing).length) = _
    rw [hst, ← List.length_append]
    exact pgm_read_byte_at _ _ _
  have h3 := stepLog_restart oe f _
    (log ++ ((L.more.map (fun p => toneStopWrites tp ++ p.writes chans)).flatten ++
      toneStopWrites tp) ++ runWrites s1._tune_num_chans L.trailing) 0xe0 hr (by decide)
  have hs2 : (applyRun oe L.trailing s1).score_start =
      [] ++ (L.first.encode ++
        ((L.more.map Phrase.encode).flatten ++ ((encodeRun L.trailing ++ [0xe0]) ++ rest))) := by
    rw [applyRun_score_start, h1s, hs0]
    rfl
  obtain ⟨s3, h4, h4s, h4c, h4d, h4r, h4t, h4n⟩ :=
    stepLog_phrase oe L.first hv1
      ((L.more.map Phrase.encode).flatten ++ ((encodeRun L.trailing ++ [0xe0]) ++ rest)) []
      { applyRun oe L.trailing s1 with score_cursor := 0 }
      (log ++ ((L.more.map (fun p => toneStopWrites tp ++ p.writes chans)).flatten ++
        toneStopWrites tp) ++ runWrites s1._tune_num_chans L.trailing ++ [Write.cursorReset])
      f hs2 rfl hf1
  have hk1 : (applyRun oe L.trailing s1)._tune_num_chans = chans := by
    rw [applyRun_keeps (fun t => t._tune_num_chans) playNote_tune_num_chans
      stopNote_tune_num_chans (fun _ _ => rfl) oe L.trailing s1, h1n, hn]
  have hk2 : (applyRun oe L.trailing s1).tone_playing = tp := by
    rw [applyRun_keeps (fun t => t.tone_playing) playNote_tone_playing
      stopNote_tone_playing (fun _ _ => rfl) oe L.trailing s1, h1t, htone]
  have hk3 : (applyRun oe L.trailing s1).tune_playing = true := by
    rw [applyRun_keeps (fun t => t.tune_playing) playNote_tune_playing
      stopNote_tune_playing_eq (fun _ _ => rfl) oe L.trailing s1, h1r]
  refine ⟨s3, ?_, ?_, ?_, h4d, h4t.trans hk2, h4r.trans hk3, h4n.trans hk1⟩
  · have hper : L.period = L.first.ms + (L.more.map Phrase.ms).sum := rfl
    rw [hper, h1, h2, h3, h4]
    have e1 : ({ applyRun oe L.trailing s1 with score_cursor := 0 } : State)._tune_num_chans =
        chans := hk1
    rw [e1, h1n, hn]
    simp [LoopScore.restWrites]
  · rw [h4s]
    show (applyRun oe L.trailing s1).score_start = _
    rw [applyRun_score_start, h1s, hs]
  · rw [h4c]
    simp

/-- Any number of periods of a looping score: the same block of writes is
appended once per period. -/
theorem ticksLog_periods (oe : Bool) (fuel : Nat) (L : LoopScore) (rest : List Nat)
    (chans : Nat) (tp : Bool) (hL : L.valid) (hfuel : L.fuelOk fuel) (k : Nat) :
    ∀ (s : State) (log : List Write), L.waitingAfterFirst rest chans tp s →
      ∃ s', ticksLog oe fuel (k * L.period) s log =
          some (s', log ++
            (List.replicate k (L.restWrites chans tp ++ L.first.writes chans)).flatten) ∧
        L.waitingAfterFirst rest chans tp s' := by
  induction k with
  | zero =>
    intro s log hP
    exact ⟨s, by simp [ticksLog], hP⟩
  | succ k ih =>
    intro s log hP
    obtain ⟨s1, h1, hP1⟩ := ticksLog_period oe fuel L rest chans tp hL hfuel s log hP
    obtain ⟨s2, h2, hP2⟩ := ih s1 (log ++ (L.restWrites chans tp ++ L.first.writes chans)) hP1
    refine ⟨s2, ?_, hP2⟩
    have hk : (k + 1) * L.period = L.period + k * L.period := by
      rw [Nat.succ_mul, Nat.add_comm]
    rw [hk, ticksLog_add, h1, Option.some_bind, h2, List.replicate_succ, List.flatten_cons,
      List.append_assoc]

theorem replicate_rotate {α : Type} (a b : List α) (k : Nat) :
    a ++ (List.replicate k (b ++ a)).flatten = (List.replicate k (a ++ b)).flatten ++ a := by
  induction k with
  | zero => simp
  | succ k ih =>
    rw [List.replicate_succ, List.flatten_cons, List.replicate_succ, List.flatten_cons,
      List.append_assoc, List.append_assoc, ← ih, List.append_assoc]

theorem bind_ticksLog_fst (oe : Bool) (fuel n : Nat) (x : Option (State × List Write)) :
    (x.bind (fun r => ticksLog oe fuel n r.1 r.2)).map Prod.fst =
      (x.map Prod.fst).bind (ticks oe fuel n) := by
  cases x with
  | none => rfl
  | some r => exact ticksLog_fst oe fuel n r.1 r.2

/-! ## C15: restart and the passes of a looping score -/

/-- C15: (i) when `step()` decodes a restart command (opcode `0xE0`) the loop
continues from the state that differs only in the cursor, set to the score start
(offset 0 of the buffer stored by the last `playScore`); `tune_playing` is
unchanged.  (ii) For every looping score (phrases of valid note-on/note-off
commands each ended by a wait of at least 1 ms, a trailing run, then restart),
every starting state, a constant sound-enabled predicate and every `k`:
`playScore` followed by the ticks of `k` passes returns, and the sequence of
amplitude and frequency writes, countdown values and cursor resets recorded is
`k` copies of one and the same block, the writes of a pass, followed by the
writes of the first phrase of the next pass.  The block depends only on the
score, the channel count and the `tone_playing` flag.  The state reached is the
one the unrecorded `playScore` and `ticks` reach. -/
theorem restart_and_loop_passes_repeat (oe : Bool) (fuel : Nat) :
    (∀ (s : State) (command : Nat),
      pgm_read_byte s.score_start s.score_cursor = some command →
      command &&& 0xf0 = 0xe0 →
      step oe (fuel + 1) s = step oe fuel { s with score_cursor := 0 }) ∧
    (∀ (L : LoopScore) (rest : List Nat) (s : State) (k : Nat),
      L.valid → L.fuelOk fuel →
      ∃ s',
        (playScoreLog oe fuel (L.encode ++ rest) s []).bind
            (fun r => ticksLog oe fuel (k * L.period) r.1 r.2) =
          some (s', (List.replicate k (L.passWrites s._tune_num_chans s.tone_playing)).flatten ++
            L.first.writes s._tune_num_chans) ∧
        (playScore oe fuel (L.encode ++ rest) s).bind (ticks oe fuel (k * L.period)) =
          some s') := by
  refine ⟨fun s command hr hop => step_restart oe fuel s command hr hop, ?_⟩
  intro L rest s k hL hfuel
  have hf1 : L.first.run.length + 1 ≤ fuel := by
    have := hfuel.2
    omega
  obtain ⟨s1, h1, h1s, h1c, h1d, h1r, h1t, h1n⟩ :=
    stepLog_phrase oe L.first hL.1
      ((L.more.map Phrase.encode).flatten ++ ((encodeRun L.trailing ++ [0xe0]) ++ rest)) []
      { s with score_start := L.encode ++ rest, score_cursor := 0 } [] fuel
      (by
        show L.encode ++ rest = _
        simp [LoopScore.encode])
      rfl hf1
  have hplay : playScoreLog oe fuel (L.encode ++ rest) s [] =
      some ({ s1 with tune_playing := true }, L.first.writes s._tune_num_chans) := by
    unfold playScoreLog
    rw [h1]
    rfl
  have hP : L.waitingAfterFirst rest s._tune_num_chans s.tone_playing
      { s1 with tune_playing := true } :=
    ⟨h1s, by rw [show ({ s1 with tune_playing := true } : State).score_cursor =
        s1.score_cursor from rfl, h1c]; simp, h1d, h1t, rfl, h1n⟩
  obtain ⟨s2, h2, _⟩ := ticksLog_periods oe fuel L rest s._tune_num_chans s.tone_playing
    hL hfuel k { s1 with tune_playing := true } (L.first.writes s._tune_num_chans) hP
  have hlog : (playScoreLog oe fuel (L.encode ++ rest) s []).bind
      (fun r => ticksLog oe fuel (k * L.period) r.1 r.2) =
      some (s2, (List.replicate k (L.passWrites s._tune_num_chans s.tone_playing)).flatten ++
        L.first.writes s._tune_num_chans) := by
    rw [hplay, Option.some_bind, h2]
    have := replicate_rotate (L.first.writes s._tune_num_chans)
      (L.restWrites s._tune_num_chans s.tone_playing) k
    unfold LoopScore.passWrites
    rw [this]
  refine ⟨s2, hlog, ?_⟩
  have he := bind_ticksLog_fst oe fuel (k * L.period)
    (playScoreLog oe fuel (L.encode ++ rest) s [])
  rw [playScoreLog_fst, hlog] at he
  exact he.symm

/-- C15 at a concrete looping score (`tinyLoop`, a pass of 3 ms) over five
passes after `initChannel`: the recorded writes are five copies of the writes of
one pass followed by the writes of the first phrase; the block is evaluated
explicitly. -/
theorem restart_and_loop_passes_repeat_witness :
    (step true (8 + 1) { atNoteOn with score_start := tinyLoop.encode, score_cursor := 10 } =
      step true 8
        { ({ atNoteOn with score_start := tinyLoop.encode, score_cursor := 10 } : State) with
          score_cursor := 0 }) ∧
    (∃ s',
      (playScoreLog true 8 (tinyLoop.encode ++ [0xf0]) (initChannel powerOn) []).bind
          (fun r => ticksLog true 8 (5 * tinyLoop.period) r.1 r.2) =
        some (s', (List.replicate 5 (tinyLoop.passWrites (initChannel powerOn)._tune_num_chans
            (initChannel powerOn).tone_playing)).flatten ++
          tinyLoop.first.writes (initChannel powerOn)._tune_num_chans) ∧
      (playScore true 8 (tinyLoop.encode ++ [0xf0]) (initChannel powerOn)).bind
          (ticks true 8 (5 * tinyLoop.period)) = some s') ∧
    tinyLoop.passWrites 2 false =
      [Write.amplitude 0 Amplitude.ARCADA_MAX_VOLUME, Write.frequency 0 523, Write.countdown 1,
       Write.amplitude 0 Amplitude.zero, Write.amplitude 1 Amplitude.ARCADA_MAX_VOLUME,
       Write.frequency 1 659, Write.countdown 2, Write.amplitude 1 Amplitude.zero,
       Write.cursorReset] :=
  ⟨(restart_and_loop_passes_repeat true 8).1
      { atNoteOn with score_start := tinyLoop.encode, score_cursor := 10 } 0xe0 rfl rfl,
    (restart_and_loop_passes_repeat true 8).2 tinyLoop [0xf0] (initChannel powerOn) 5
      (by simp [LoopScore.valid, Phrase.valid, ZeroCmd.valid, Phrase.ms, tinyLoop])
      (by simp [LoopScore.fuelOk, tinyLoop]),
    by decide⟩

end ArduboyPlaytune
